import Mathlib

/-!
Verification of the gsmc game-server control plane (`src/gsm`), a Python
program that provisions EC2 instances running containerized game servers.

The embedding is shallow: Python functions become Lean functions, the
JSON-backed local state store becomes an association list, and the
stateful provisioner operations become explicit state-passing functions
over a system state (local record, cloud VM, elastic IP).  Python strings
are modeled as Lean `String` (a packed `List Char`); the character-level
operations the source uses (`str.split`, `str.strip`, `int(...)`,
`",".join(...)`, `sorted(...)`) are implemented over `List Char`,
mirroring Python semantics on the inputs that occur.  Machine integers in
the source are plain Python ints, so `Nat`/`Int` model them exactly.
-/

/-! ## Python string primitives -/

/-- Python `str.isspace`-style whitespace test, restricted to the ASCII
whitespace characters that can occur in this program's data. -/
def pyIsSpace (c : Char) : Bool :=
  c = ' ' || c = '\t' || c = '\n' || c = '\r'

/-- Helper for `str.split(sep)`: returns the first field and the list of
remaining fields. -/
def pySplitAux (sep : Char) : List Char → List Char × List (List Char)
  | [] => ([], [])
  | c :: rest =>
    let r := pySplitAux sep rest
    if c = sep then ([], r.1 :: r.2) else (c :: r.1, r.2)

/-- Python `s.split(sep)` for a one-character separator: splits at every
occurrence of `sep`, keeping empty fields (so `"".split(",") = [""]`). -/
def pySplitChars (sep : Char) (s : List Char) : List (List Char) :=
  (pySplitAux sep s).1 :: (pySplitAux sep s).2

/-- Python `sep.join(parts)` for a one-character separator. -/
def pyJoinChars (sep : Char) : List (List Char) → List Char
  | [] => []
  | [x] => x
  | x :: y :: t => x ++ sep :: pyJoinChars sep (y :: t)

/-- Python `s.strip()`: remove leading and trailing whitespace. -/
def pyStripChars (s : List Char) : List Char :=
  ((s.dropWhile pyIsSpace).reverse.dropWhile pyIsSpace).reverse

/-- Value of an ASCII decimal digit character, `none` for non-digits. -/
def pyDigitVal (c : Char) : Option Nat :=
  if c.isDigit then some (c.toNat - '0'.toNat) else none

/-- Accumulate the decimal value of a digit string; `none` on any
non-digit character (Python `int` raises `ValueError`). -/
def pyDigitsToNatAux (acc : Nat) : List Char → Option Nat
  | [] => some acc
  | c :: rest =>
    match pyDigitVal c with
    | some d => pyDigitsToNatAux (10 * acc + d) rest
    | none => none

/-- Python `int(s)` in base 10: strip whitespace, allow an optional sign,
then require a nonempty run of decimal digits. `none` models the
`ValueError` the source catches. -/
def pyInt (s : List Char) : Option Int :=
  match pyStripChars s with
  | [] => none
  | c :: rest =>
    if c = '-' then
      if rest = [] then none else (pyDigitsToNatAux 0 rest).map (fun n => -(n : Int))
    else if c = '+' then
      if rest = [] then none else (pyDigitsToNatAux 0 rest).map (fun n => (n : Int))
    else (pyDigitsToNatAux 0 (c :: rest)).map (fun n => (n : Int))

/-- Decimal digit characters of `n`, most significant first (empty for 0).
Fueled so the definition is structural and kernel-reducible; `fuel > n`
suffices since `n / 10 < n` for `n > 0`. -/
def natToCharsAux (fuel : Nat) (n : Nat) : List Char :=
  match fuel with
  | 0 => []
  | fuel + 1 =>
    if n = 0 then [] else natToCharsAux fuel (n / 10) ++ [Nat.digitChar (n % 10)]

/-- Python `str(n)` for a natural number. -/
def natToChars (n : Nat) : List Char :=
  if n = 0 then ['0'] else natToCharsAux (n + 1) n

/-! ## Python dicts as association lists

Python dicts preserve insertion order and overwrite on repeated keys;
lookup is by key equality.  `pyLookup` uses first-match, which agrees
with dict lookup whenever keys are distinct (all stores here keep them
distinct). -/

/-- A Python dict with `str` keys, as an insertion-ordered assoc list. -/
abbrev PyDict (β : Type) := List (String × β)

/-- Dict lookup `d.get(k)`. -/
def pyLookup {β : Type} (d : PyDict β) (k : String) : Option β :=
  (d.find? (fun kv => kv.1 = k)).map (·.2)

/-- Dict assignment `d[k] = v`: overwrite in place if the key exists,
else append (Python insertion order). -/
def pyInsert {β : Type} (d : PyDict β) (k : String) (v : β) : PyDict β :=
  if (d.find? (fun kv => kv.1 = k)).isSome then
    d.map (fun kv => if kv.1 = k then (k, v) else kv)
  else
    d ++ [(k, v)]

/-- Python `d1 == d2` on dicts: same keys, same values (order-blind). -/
def pyDictEq {β : Type} (d₁ d₂ : PyDict β) : Prop :=
  ∀ k, pyLookup d₁ k = pyLookup d₂ k

/-- Python `k in d`. -/
def pyMem {β : Type} (d : PyDict β) (k : String) : Bool :=
  (d.find? (fun kv => kv.1 = k)).isSome

/-! ## Ports tag codec

`src/gsm/control/provisioner.py` lines 85–99 (`_parse_ports_tag`) and
lines 421–424 of `Provisioner.launch` (serialization). -/

/-- A game port declaration (`src/gsm/games/registry.py`, `GamePort`).
The source stores `port` as a Python int; every registered port is a
non-negative port number, so `Nat` models it. -/
structure GamePort where
  port : Nat
  protocol : String
deriving Repr, DecidableEq

/-- Loop body of `_parse_ports_tag`: strip the entry, skip it unless it
contains `/`, parse the part before the first `/` as an int (skipping on
`ValueError`), and store `result[entry] = int(port_str)`. -/
def parseEntry (result : PyDict Int) (e : List Char) : PyDict Int :=
  let entry := pyStripChars e
  if entry.contains '/' then
    match pyInt (pySplitAux '/' entry).1 with
    | some n => pyInsert result ⟨entry⟩ n
    | none => result
  else result

/-- `_parse_ports_tag(tag)`: parse `'27015/udp,34197/udp'` into
`{port_spec: port_num}` (provisioner.py lines 85–99). -/
def _parse_ports_tag (tag : String) : PyDict Int :=
  if tag = "" then [] else (pySplitChars ',' tag.data).foldl parseEntry []

/-- The f-string key `f"{p.port}/{p.protocol}"` used by `launch`. -/
def portKey (p : GamePort) : String :=
  ⟨natToChars p.port ++ '/' :: p.protocol.data⟩

/-- `ports = {f"{p.port}/{p.protocol}": p.port for p in game.ports}`
(provisioner.py line 423). -/
def portsDict (ports : List GamePort) : PyDict Int :=
  ports.foldl (fun d p => pyInsert d (portKey p) (p.port : Int)) []

/-- Lexicographic strict order on code-point sequences (Python `<`). -/
def pyCharsLt : List Char → List Char → Bool
  | [], [] => false
  | [], _ :: _ => true
  | _ :: _, [] => false
  | a :: as, b :: bs => if a = b then pyCharsLt as bs else a.toNat < b.toNat

/-- Lexicographic comparison on strings, as Python `sorted` uses. -/
def pyStrLe (a b : String) : Bool := a = b || pyCharsLt a.data b.data

/-- Insert a string into a list ordered by `pyStrLe`. -/
def pySortInsert (x : String) : List String → List String
  | [] => [x]
  | y :: t => if pyStrLe x y then x :: y :: t else y :: pySortInsert x t

/-- Python `sorted(keys)`: insertion sort by lexicographic order.  On the
duplicate-free key lists this program sorts, every correct comparison
sort produces the same output, so this is extensionally Python's
`sorted`. -/
def pySorted : List String → List String
  | [] => []
  | x :: t => pySortInsert x (pySorted t)

/-- `ports_tag = ",".join(sorted(ports.keys()))` (provisioner.py line 424). -/
def portsTag (ports : List GamePort) : String :=
  ⟨pyJoinChars ',' ((pySorted ((portsDict ports).map (·.1))).map String.data)⟩

example : _parse_ports_tag "27015/udp,34197/udp" =
    [("27015/udp", 27015), ("34197/udp", 34197)] := by decide

example : portsTag [⟨34197, "udp"⟩, ⟨27015, "tcp"⟩] = "27015/tcp,34197/udp" := by decide

example : _parse_ports_tag (portsTag [⟨34197, "udp"⟩, ⟨27015, "tcp"⟩]) =
    [("27015/tcp", 27015), ("34197/udp", 34197)] := by decide

/-! ## String utility lemmas -/

theorem pySplitAux_no_sep {sep : Char} {l : List Char} (h : sep ∉ l) :
    pySplitAux sep l = (l, []) := by
  induction l with
  | nil => rfl
  | cons c rest ih =>
    simp only [List.mem_cons, not_or] at h
    simp [pySplitAux, ih h.2, h.1, Ne.symm h.1]

theorem pySplitAux_append_sep {sep : Char} {x rest : List Char} (h : sep ∉ x) :
    pySplitAux sep (x ++ sep :: rest) =
      (x, (pySplitAux sep rest).1 :: (pySplitAux sep rest).2) := by
  induction x with
  | nil => simp [pySplitAux]
  | cons c t ih =>
    simp only [List.mem_cons, not_or] at h
    simp [pySplitAux, ih h.2, Ne.symm h.1]

theorem pySplitChars_pyJoinChars {sep : Char} {L : List (List Char)} (hne : L ≠ [])
    (h : ∀ l ∈ L, sep ∉ l) : pySplitChars sep (pyJoinChars sep L) = L := by
  induction L with
  | nil => exact absurd rfl hne
  | cons x t ih =>
    cases t with
    | nil =>
      have hx : sep ∉ x := h x (List.mem_cons_self _ _)
      simp [pyJoinChars, pySplitChars, pySplitAux_no_sep hx]
    | cons y t' =>
      have hx : sep ∉ x := h x (List.mem_cons_self _ _)
      have ht : ∀ l ∈ y :: t', sep ∉ l := fun l hl => h l (List.mem_cons_of_mem _ hl)
      have := ih (by simp) ht
      simp only [pyJoinChars, pySplitChars] at *
      rw [pySplitAux_append_sep hx]
      simp_all

theorem dropWhile_eq_self_of_not {p : Char → Bool} {l : List Char}
    (h : ∀ c ∈ l, p c = false) : l.dropWhile p = l := by
  cases l with
  | nil => rfl
  | cons c t => simp [List.dropWhile, h c (List.mem_cons_self _ _)]

theorem pyStripChars_eq_self {l : List Char} (h : ∀ c ∈ l, pyIsSpace c = false) :
    pyStripChars l = l := by
  unfold pyStripChars
  rw [dropWhile_eq_self_of_not h, dropWhile_eq_self_of_not (fun c hc => h c (List.mem_reverse.mp hc)),
    List.reverse_reverse]

theorem pyDigitsToNatAux_append (acc : Nat) (xs ys : List Char) :
    pyDigitsToNatAux acc (xs ++ ys) =
      (pyDigitsToNatAux acc xs).bind (fun a => pyDigitsToNatAux a ys) := by
  induction xs generalizing acc with
  | nil => rfl
  | cons c t ih =>
    simp only [List.cons_append, pyDigitsToNatAux]
    cases pyDigitVal c with
    | none => rfl
    | some d => exact ih _

/-! ## Decimal printing and parsing -/

/-- A character that is an ASCII decimal digit. -/
def IsDigitChar (c : Char) : Prop := ∃ d, d < 10 ∧ c = Nat.digitChar d

theorem digitChar_val {d : Nat} (h : d < 10) :
    pyDigitVal (Nat.digitChar d) = some d := by
  interval_cases d <;> decide

theorem digitChar_facts {d : Nat} (h : d < 10) :
    Nat.digitChar d ≠ ',' ∧ Nat.digitChar d ≠ '/' ∧ pyIsSpace (Nat.digitChar d) = false ∧
      Nat.digitChar d ≠ '-' ∧ Nat.digitChar d ≠ '+' := by
  interval_cases d <;> decide

theorem natToCharsAux_zero (fuel : Nat) : natToCharsAux fuel 0 = [] := by
  cases fuel <;> simp [natToCharsAux]

theorem natToCharsAux_digits {fuel n : Nat} :
    ∀ c ∈ natToCharsAux fuel n, IsDigitChar c := by
  induction fuel generalizing n with
  | zero => simp [natToCharsAux]
  | succ fuel ih =>
    intro c hc
    simp only [natToCharsAux] at hc
    by_cases hn : n = 0
    · simp [hn] at hc
    · rw [if_neg hn] at hc
      rcases List.mem_append.mp hc with h | h
      · exact ih _ h
      · simp only [List.mem_singleton] at h
        exact ⟨n % 10, Nat.mod_lt _ (by norm_num), h⟩

theorem natToChars_digits {n : Nat} : ∀ c ∈ natToChars n, IsDigitChar c := by
  intro c hc
  unfold natToChars at hc
  by_cases hn : n = 0
  · simp [hn] at hc
    exact ⟨0, by norm_num, hc⟩
  · rw [if_neg hn] at hc
    exact natToCharsAux_digits _ hc

theorem natToCharsAux_ne_nil {fuel n : Nat} (hf : n < fuel) (hn : n ≠ 0) :
    natToCharsAux fuel n ≠ [] := by
  cases fuel with
  | zero => omega
  | succ fuel =>
    simp only [natToCharsAux, if_neg hn]
    simp

theorem pyDigitsToNatAux_natToCharsAux {fuel n : Nat} (hf : n < fuel) (hn : n ≠ 0) :
    ∀ acc, pyDigitsToNatAux acc (natToCharsAux fuel n) =
      some (acc * 10 ^ (natToCharsAux fuel n).length + n) := by
  induction fuel generalizing n with
  | zero => omega
  | succ fuel ih =>
    intro acc
    simp only [natToCharsAux, if_neg hn]
    have hm : n % 10 < 10 := Nat.mod_lt _ (by norm_num)
    by_cases h10 : n / 10 = 0
    · rw [h10, natToCharsAux_zero]
      simp only [List.nil_append, pyDigitsToNatAux, digitChar_val hm, List.length_singleton,
        pow_one, Option.some.injEq]
      omega
    · have hdiv : n / 10 < fuel := by
        have h1 : n / 10 < n := Nat.div_lt_self (by omega) (by norm_num)
        omega
      rw [pyDigitsToNatAux_append, ih hdiv h10]
      simp only [Option.some_bind, pyDigitsToNatAux, digitChar_val hm, List.length_append,
        List.length_singleton, pow_succ, Option.some.injEq]
      have hsplit : acc * (10 ^ (natToCharsAux fuel (n / 10)).length * 10) =
          acc * 10 ^ (natToCharsAux fuel (n / 10)).length * 10 := by ring
      rw [hsplit]
      have hdm := Nat.div_add_mod n 10
      omega

theorem pyInt_natToChars (n : Nat) : pyInt (natToChars n) = some (n : Int) := by
  by_cases hn : n = 0
  · subst hn; decide
  · have hchars : ∀ c ∈ natToChars n, IsDigitChar c := natToChars_digits
    have hnospace : ∀ c ∈ natToChars n, pyIsSpace c = false := by
      intro c hc
      obtain ⟨d, hd, rfl⟩ := hchars c hc
      exact (digitChar_facts hd).2.2.1
    unfold pyInt
    rw [pyStripChars_eq_self hnospace]
    have hne : natToChars n ≠ [] := by
      unfold natToChars
      rw [if_neg hn]
      exact natToCharsAux_ne_nil (by omega) hn
    obtain ⟨c, rest, hcr⟩ := List.exists_cons_of_ne_nil hne
    have hc : IsDigitChar c := by
      apply hchars
      rw [hcr]; exact List.mem_cons_self _ _
    obtain ⟨d, hd, rfl⟩ := hc
    simp only [hcr, if_neg (digitChar_facts hd).2.2.2.1, if_neg (digitChar_facts hd).2.2.2.2]
    rw [← hcr]
    unfold natToChars
    rw [if_neg hn]
    rw [pyDigitsToNatAux_natToCharsAux (by omega) hn 0]
    simp


/-! ## Association-list lemmas -/

theorem find?_eq_none_of_key_not_mem {β : Type} {d : PyDict β} {k : String}
    (h : k ∉ d.map Prod.fst) : d.find? (fun kv => kv.1 = k) = none := by
  rw [List.find?_eq_none]
  intro kv hkv
  simp only [decide_eq_true_eq]
  intro heq
  exact h (heq ▸ List.mem_map_of_mem _ hkv)

theorem pyInsert_fresh {β : Type} {d : PyDict β} {k : String} (v : β)
    (h : k ∉ d.map Prod.fst) : pyInsert d k v = d ++ [(k, v)] := by
  simp [pyInsert, find?_eq_none_of_key_not_mem h]

theorem find?_key_unique {β : Type} {d : PyDict β} {k : String} {kv : String × β}
    (hnd : (d.map Prod.fst).Nodup) : d.find? (fun x => x.1 = k) = some kv ↔ kv ∈ d ∧ kv.1 = k := by
  induction d with
  | nil => simp
  | cons a t ih =>
    simp only [List.map_cons, List.nodup_cons] at hnd
    by_cases ha : a.1 = k
    · rw [List.find?_cons_of_pos _ (by simp [ha])]
      constructor
      · intro h
        have hak : a = kv := Option.some.inj h
        subst hak
        exact ⟨List.mem_cons_self _ _, ha⟩
      · rintro ⟨hmem, hkv⟩
        rcases List.mem_cons.mp hmem with h | h
        · rw [h]
        · exfalso
          apply hnd.1
          have hfst : a.1 = kv.1 := by rw [ha, hkv]
          rw [hfst]
          exact List.mem_map_of_mem Prod.fst h
    · rw [List.find?_cons_of_neg _ (by simp [ha]), ih hnd.2]
      constructor
      · rintro ⟨hm, hk⟩
        exact ⟨List.mem_cons_of_mem _ hm, hk⟩
      · rintro ⟨hmem, hkv⟩
        rcases List.mem_cons.mp hmem with h | h
        · exact absurd (h ▸ hkv) ha
        · exact ⟨h, hkv⟩

theorem pyLookup_perm {β : Type} {d₁ d₂ : PyDict β} (hperm : d₁.Perm d₂)
    (hnd : (d₁.map Prod.fst).Nodup) (k : String) : pyLookup d₁ k = pyLookup d₂ k := by
  have hnd₂ : (d₂.map Prod.fst).Nodup := ((hperm.map Prod.fst).nodup_iff).mp hnd
  unfold pyLookup
  cases h : d₁.find? (fun kv => kv.1 = k) with
  | some kv =>
    have hm : kv ∈ d₁ ∧ kv.1 = k := (find?_key_unique hnd).mp h
    have : d₂.find? (fun x => x.1 = k) = some kv :=
      (find?_key_unique hnd₂).mpr ⟨hperm.mem_iff.mp hm.1, hm.2⟩
    rw [this]
  | none =>
    rw [List.find?_eq_none] at h
    have : d₂.find? (fun x => x.1 = k) = none := by
      rw [List.find?_eq_none]
      intro x hx
      exact h x (hperm.mem_iff.mpr hx)
    rw [this]

/-! ## Port keys: structure and injectivity -/

/-- A valid port set: distinct port/protocol pairs over the protocols
`GamePort` declares (`registry.py`: `protocol: str  # "tcp" or "udp"`). -/
def ValidPortSet (ports : List GamePort) : Prop :=
  ports.Nodup ∧ ∀ p ∈ ports, p.protocol = "tcp" ∨ p.protocol = "udp"

theorem natToChars_ne_nil (n : Nat) : natToChars n ≠ [] := by
  unfold natToChars
  by_cases hn : n = 0
  · simp [hn]
  · rw [if_neg hn]
    exact natToCharsAux_ne_nil (by omega) hn

theorem natToChars_no_slash {n : Nat} : '/' ∉ natToChars n := by
  intro hmem
  obtain ⟨d, hd, hc⟩ := natToChars_digits _ hmem
  exact (digitChar_facts hd).2.1 hc.symm

theorem natToChars_inj {m n : Nat} (h : natToChars m = natToChars n) : m = n := by
  have hsome := pyInt_natToChars m
  rw [h, pyInt_natToChars n] at hsome
  exact_mod_cast (Option.some.inj hsome).symm

theorem append_slash_inj {a b x y : List Char} (ha : '/' ∉ a) (hb : '/' ∉ b)
    (h : a ++ '/' :: x = b ++ '/' :: y) : a = b ∧ x = y := by
  induction a generalizing b with
  | nil =>
    cases b with
    | nil => simpa using h
    | cons c t =>
      simp only [List.nil_append, List.cons_append, List.cons.injEq] at h
      simp only [List.mem_cons, not_or] at hb
      exact absurd h.1 hb.1
  | cons c t ih =>
    cases b with
    | nil =>
      simp only [List.cons_append, List.nil_append, List.cons.injEq] at h
      simp only [List.mem_cons, not_or] at ha
      exact absurd h.1.symm ha.1
    | cons c' t' =>
      simp only [List.cons_append, List.cons.injEq] at h
      simp only [List.mem_cons, not_or] at ha hb
      obtain ⟨h1, h2⟩ := ih ha.2 hb.2 h.2
      exact ⟨by rw [h.1, h1], h2⟩

theorem portKey_inj {p q : GamePort} (h : portKey p = portKey q) : p = q := by
  unfold portKey at h
  have hdata : natToChars p.port ++ '/' :: p.protocol.data =
      natToChars q.port ++ '/' :: q.protocol.data := congrArg String.data h
  obtain ⟨h1, h2⟩ := append_slash_inj natToChars_no_slash natToChars_no_slash hdata
  cases p; cases q
  simp only [GamePort.mk.injEq]
  exact ⟨natToChars_inj h1, by apply String.ext; exact h2⟩

/-- Character inventory of a valid key: decimal digits, one `/`, and the
letters of `tcp`/`udp`.  None of these is a comma or whitespace. -/
theorem portKey_chars {p : GamePort} (hp : p.protocol = "tcp" ∨ p.protocol = "udp") :
    ∀ c ∈ (portKey p).data, c ≠ ',' ∧ pyIsSpace c = false := by
  intro c hc
  unfold portKey at hc
  simp only [List.mem_append, List.mem_cons] at hc
  rcases hc with hc | hc | hc
  · obtain ⟨d, hd, rfl⟩ := natToChars_digits _ hc
    exact ⟨(digitChar_facts hd).1, (digitChar_facts hd).2.2.1⟩
  · subst hc; exact ⟨by decide, by decide⟩
  · rcases hp with hp | hp <;> rw [hp] at hc <;> fin_cases hc <;> simp_all <;> decide

theorem portKey_data_ne_nil (p : GamePort) : (portKey p).data ≠ [] := by
  unfold portKey
  simp


/-! ## Parsing a serialized key -/

/-- The numeric value the parser stores for an entry string. -/
def keyVal (k : String) : Int :=
  (pyInt (pySplitAux '/' (pyStripChars k.data)).1).getD 0

theorem portKey_strip {p : GamePort} (hp : p.protocol = "tcp" ∨ p.protocol = "udp") :
    pyStripChars (portKey p).data = (portKey p).data :=
  pyStripChars_eq_self (fun c hc => (portKey_chars hp c hc).2)

theorem portKey_split {p : GamePort} :
    (pySplitAux '/' (portKey p).data).1 = natToChars p.port := by
  unfold portKey
  rw [pySplitAux_append_sep natToChars_no_slash]

theorem portKey_pyInt {p : GamePort} (hp : p.protocol = "tcp" ∨ p.protocol = "udp") :
    pyInt (pySplitAux '/' (pyStripChars (portKey p).data)).1 = some ((p.port : Int)) := by
  rw [portKey_strip hp, portKey_split, pyInt_natToChars]

theorem keyVal_portKey {p : GamePort} (hp : p.protocol = "tcp" ∨ p.protocol = "udp") :
    keyVal (portKey p) = (p.port : Int) := by
  unfold keyVal
  rw [portKey_pyInt hp]
  rfl

theorem parseEntry_portKey {p : GamePort} (hp : p.protocol = "tcp" ∨ p.protocol = "udp")
    (d : PyDict Int) : parseEntry d (portKey p).data = pyInsert d (portKey p) ((p.port : Int)) := by
  unfold parseEntry
  simp only [portKey_strip hp]
  have hcontains : (portKey p).data.contains '/' = true := by
    apply List.elem_eq_true_of_mem
    unfold portKey
    simp
  rw [if_pos hcontains, portKey_split, pyInt_natToChars]

theorem parse_foldl_strings {ks : List String}
    (hks : ∀ k ∈ ks, ∃ p : GamePort, (p.protocol = "tcp" ∨ p.protocol = "udp") ∧ k = portKey p) :
    ∀ d : PyDict Int, (d.map Prod.fst ++ ks).Nodup →
    (ks.map String.data).foldl parseEntry d = d ++ ks.map (fun k => (k, keyVal k)) := by
  induction ks with
  | nil => simp
  | cons k t ih =>
    intro d hnd
    obtain ⟨p, hp, rfl⟩ := hks k (List.mem_cons_self _ _)
    simp only [List.map_cons, List.foldl_cons]
    rw [parseEntry_portKey hp]
    have hfresh : portKey p ∉ d.map Prod.fst := by
      rw [List.nodup_append] at hnd
      intro hmem
      exact (List.disjoint_left.mp hnd.2.2 hmem) (List.mem_cons_self _ _)
    rw [pyInsert_fresh _ hfresh]
    rw [ih (fun q hqt => hks q (List.mem_cons_of_mem _ hqt)) _ (by simpa using hnd)]
    simp [keyVal_portKey hp]

theorem portsDict_eq_map {ports : List GamePort} (hnd : (ports.map portKey).Nodup) :
    portsDict ports = ports.map (fun p => (portKey p, (p.port : Int))) := by
  have hgen : ∀ (qs : List GamePort) (d : PyDict Int),
      (d.map Prod.fst ++ qs.map portKey).Nodup →
      qs.foldl (fun d p => pyInsert d (portKey p) ((p.port : Int))) d =
        d ++ qs.map (fun p => (portKey p, (p.port : Int))) := by
    intro qs
    induction qs with
    | nil => simp
    | cons p t ih =>
      intro d hnd'
      simp only [List.map_cons, List.foldl_cons]
      have hfresh : portKey p ∉ d.map Prod.fst := by
        rw [List.nodup_append] at hnd'
        intro hmem
        exact (List.disjoint_left.mp hnd'.2.2 hmem) (List.mem_cons_self _ _)
      rw [pyInsert_fresh _ hfresh]
      rw [ih _ (by simpa using hnd')]
      simp
  simpa [portsDict] using hgen ports [] (by simpa using hnd)

/-! ## Sorting is a permutation -/

theorem pySortInsert_perm (x : String) (l : List String) :
    (pySortInsert x l).Perm (x :: l) := by
  induction l with
  | nil => exact List.Perm.refl _
  | cons y t ih =>
    unfold pySortInsert
    by_cases h : pyStrLe x y = true
    · rw [if_pos h]
    · rw [if_neg h]
      exact (ih.cons y).trans (List.Perm.swap x y t)

theorem pySorted_perm (l : List String) : (pySorted l).Perm l := by
  induction l with
  | nil => exact List.Perm.refl _
  | cons x t ih => exact (pySortInsert_perm x (pySorted t)).trans (ih.cons x)

theorem pyJoinChars_ne_nil {sep : Char} {L : List (List Char)} (hL : L ≠ [])
    (h : ∀ l ∈ L, l ≠ []) : pyJoinChars sep L ≠ [] := by
  match L with
  | [x] => exact h x (List.mem_cons_self _ _)
  | x :: y :: t => simp [pyJoinChars]

/-! ## Claim C4: ports-tag round trip -/

/-- **C4.** For every valid port set `P` (a finite set of distinct
port/protocol pairs), parsing the serialized ports tag (the sorted,
comma-joined `"<port>/<proto>"` keys produced at launch) returns exactly
the mapping from `"<port>/<proto>"` to the numeric port:
`parse(serialize(P)) == P` as Python dicts. -/
theorem C4_ports_tag_round_trip (ports : List GamePort) (hv : ValidPortSet ports) :
    pyDictEq (_parse_ports_tag (portsTag ports)) (portsDict ports) := by
  obtain ⟨hnd, hproto⟩ := hv
  have hkey_nodup : (ports.map portKey).Nodup :=
    hnd.map_on (fun x _ y _ hxy => portKey_inj hxy)
  have hdict := portsDict_eq_map hkey_nodup
  have hkeys : (portsDict ports).map (·.1) = ports.map portKey := by
    rw [hdict, List.map_map]
    rfl
  by_cases hports : ports = []
  · subst hports
    intro k
    rfl
  · have hsk_perm : (pySorted ((portsDict ports).map (·.1))).Perm (ports.map portKey) := by
      rw [hkeys]; exact pySorted_perm _
    have hsk_valid : ∀ k ∈ pySorted ((portsDict ports).map (·.1)),
        ∃ p : GamePort, (p.protocol = "tcp" ∨ p.protocol = "udp") ∧ k = portKey p := by
      intro k hk
      have hmem : k ∈ ports.map portKey := hsk_perm.mem_iff.mp hk
      obtain ⟨p, hp, rfl⟩ := List.mem_map.mp hmem
      exact ⟨p, hproto p hp, rfl⟩
    have hsk_ne : pySorted ((portsDict ports).map (·.1)) ≠ [] := by
      intro hnil
      have hlen := hsk_perm.length_eq
      rw [hnil] at hlen
      simp only [List.length_nil, List.length_map] at hlen
      exact hports (List.length_eq_zero.mp hlen.symm)
    have htag_ne : portsTag ports ≠ "" := by
      unfold portsTag
      intro hkeq
      have hdata : pyJoinChars ',' ((pySorted ((portsDict ports).map (·.1))).map String.data)
          = [] := congrArg String.data hkeq
      apply pyJoinChars_ne_nil (L := (pySorted ((portsDict ports).map (·.1))).map String.data)
        (by simpa using hsk_ne) ?_ hdata
      intro l hl
      obtain ⟨k, hk, rfl⟩ := List.mem_map.mp hl
      obtain ⟨p, _, rfl⟩ := hsk_valid k hk
      exact portKey_data_ne_nil p
    have hsplit : pySplitChars ',' (portsTag ports).data =
        (pySorted ((portsDict ports).map (·.1))).map String.data := by
      apply pySplitChars_pyJoinChars (by simpa using hsk_ne)
      intro l hl
      obtain ⟨k, hk, rfl⟩ := List.mem_map.mp hl
      obtain ⟨p, hp, rfl⟩ := hsk_valid k hk
      intro hcomma
      exact (portKey_chars hp ',' hcomma).1 rfl
    have hsk_nodup : ((([] : PyDict Int).map Prod.fst) ++
        pySorted ((portsDict ports).map (·.1))).Nodup := by
      simpa using (hsk_perm.nodup_iff).mpr hkey_nodup
    have hparse : _parse_ports_tag (portsTag ports) =
        (pySorted ((portsDict ports).map (·.1))).map (fun k => (k, keyVal k)) := by
      unfold _parse_ports_tag
      rw [if_neg htag_ne, hsplit]
      simpa using parse_foldl_strings hsk_valid [] hsk_nodup
    have hdict' : portsDict ports = (ports.map portKey).map (fun k => (k, keyVal k)) := by
      rw [hdict, List.map_map]
      apply List.map_congr_left
      intro p hp
      simp [keyVal_portKey (hproto p hp)]
    have hperm : (_parse_ports_tag (portsTag ports)).Perm (portsDict ports) := by
      rw [hparse]
      have h1 := hsk_perm.map (fun k => (k, keyVal k))
      rw [← hdict'] at h1
      exact h1
    have hparse_keys_nodup : ((_parse_ports_tag (portsTag ports)).map Prod.fst).Nodup := by
      rw [hparse, List.map_map]
      have : (Prod.fst ∘ fun k => (k, keyVal k)) = id := rfl
      rw [this, List.map_id]
      exact (hsk_perm.nodup_iff).mpr hkey_nodup
    exact fun k => pyLookup_perm hperm hparse_keys_nodup k


/-! ## Local state store (`src/gsm/control/state.py`)

`servers.json` holds a JSON object mapping server id to a record object.
`ServerState._load` returns that dict; `_save_all` rewrites the file.  We
model the file content directly as the dict, and JSON values as `JVal`. -/

/-- A JSON value as stored in `servers.json`. -/
inductive JVal where
  | jstr : String → JVal
  | jnum : Int → JVal
  | jdict : List (String × JVal) → JVal

/-- The content of `servers.json`: server id → record object. -/
abbrev StoreFile := PyDict (PyDict JVal)

/-- Replace the value stored under an existing key (`data[k]["f"] = v`
mutates the inner dict in place). -/
def pyModify {β : Type} (d : PyDict β) (k : String) (f : β → β) : PyDict β :=
  d.map (fun kv => if kv.1 = k then (kv.1, f kv.2) else kv)

/-- `ServerState.update_status` (state.py lines 88–92): look up the id;
when present, set `status` and rewrite the file; when absent, do nothing.
The boolean records whether `_save_all` ran. -/
def ServerState.update_status (data : StoreFile) (server_id status : String) :
    StoreFile × Bool :=
  if pyMem data server_id then
    (pyModify data server_id (fun r => pyInsert r "status" (JVal.jstr status)), true)
  else (data, false)

/-- `ServerState.update_field` (state.py lines 98–102): same shape for an
arbitrary field. -/
def ServerState.update_field (data : StoreFile) (server_id fieldName : String)
    (value : JVal) : StoreFile × Bool :=
  if pyMem data server_id then
    (pyModify data server_id (fun r => pyInsert r fieldName value), true)
  else (data, false)

/-! ### Dataclass construction: `ServerRecord(**data[server_id])`

Python binds the stored dict as keyword arguments of the dataclass
`__init__`: an unknown key or a missing non-defaulted field raises
`TypeError`; defaulted fields absent from the dict get their declared
default; then `__post_init__` fills empty `launch_time` /
`container_name`. -/

/-- The dataclass fields of `ServerRecord` (state.py lines 10–26), in
declaration order, with their declared defaults (`none` = required). -/
def serverRecordFields : List (String × Option JVal) :=
  [("id", none), ("game", none), ("name", none), ("instance_id", none),
   ("region", none), ("public_ip", none), ("ports", none), ("status", none),
   ("security_group_id", none),
   ("launch_time", some (JVal.jstr "")), ("container_name", some (JVal.jstr "")),
   ("rcon_password", some (JVal.jstr "")), ("config", some (JVal.jdict [])),
   ("eip_allocation_id", some (JVal.jstr "")), ("eip_public_ip", some (JVal.jstr ""))]

/-- Fill dataclass fields from keyword arguments: value from the kwargs
if present, else the declared default, else `TypeError`. -/
def fillFields : List (String × Option JVal) → PyDict JVal → Except String (PyDict JVal)
  | [], _ => .ok []
  | (fname, dflt) :: rest, kwargs =>
    match pyLookup kwargs fname, dflt with
    | some v, _ => (fillFields rest kwargs).map (fun r => (fname, v) :: r)
    | none, some d => (fillFields rest kwargs).map (fun r => (fname, d) :: r)
    | none, none => .error ("missing required argument: " ++ fname)

/-- Keyword binding for a Python dataclass call `Cls(**kwargs)`: reject
unknown keyword arguments, then fill every field. -/
def bindDataclassArgs (fields : List (String × Option JVal)) (kwargs : PyDict JVal) :
    Except String (PyDict JVal) :=
  match kwargs.find? (fun kv => (fields.find? (fun f => f.1 = kv.1)).isNone) with
  | some kv => .error ("unexpected keyword argument: " ++ kv.1)
  | none => fillFields fields kwargs

/-- Python truthiness of a JSON value (`not self.launch_time`). -/
def jvalFalsy : JVal → Bool
  | .jstr s => s = ""
  | .jnum n => n = 0
  | .jdict d => d.isEmpty

/-- Python `s[:n]`. -/
def pyStrTake (s : String) (n : Nat) : String := ⟨s.data.take n⟩

/-- String content of an attribute (the fields interpolated by
`__post_init__` are strings in every record this program writes). -/
def jGetStr (attrs : PyDict JVal) (k : String) : String :=
  match pyLookup attrs k with
  | some (.jstr s) => s
  | _ => ""

/-- `ServerRecord.__post_init__` (state.py lines 28–32): generate
`launch_time` (the current UTC timestamp, passed in as `now`) and the
derived `container_name = f"gsm-{self.game}-{self.id[:8]}"` when empty. -/
def serverRecordPostInit (now : String) (attrs : PyDict JVal) : PyDict JVal :=
  let a1 :=
    if jvalFalsy ((pyLookup attrs "launch_time").getD (.jstr "")) then
      pyInsert attrs "launch_time" (.jstr now)
    else attrs
  if jvalFalsy ((pyLookup a1 "container_name").getD (.jstr "")) then
    pyInsert a1 "container_name"
      (.jstr ("gsm-" ++ jGetStr a1 "game" ++ "-" ++ pyStrTake (jGetStr a1 "id") 8))
  else a1

/-- `ServerState.get` (state.py lines 61–65): return `None` when the id
is absent, else construct `ServerRecord(**data[server_id])`.  A
`TypeError` from the constructor propagates (`Except.error`). -/
def ServerState.get (now : String) (data : StoreFile) (server_id : String) :
    Except String (Option (PyDict JVal)) :=
  match pyLookup data server_id with
  | some r => (bindDataclassArgs serverRecordFields r).map (fun a => some (serverRecordPostInit now a))
  | none => .ok none


/-! ## Claim C10: store updates for unknown ids are silent no-ops -/

/-- **C10.** For every server id not present in the store,
`ServerState.update_status` and `ServerState.update_field` return without
raising and leave the persisted `servers.json` content unchanged: neither
rewrites the file (`_save_all` is not called) and the content is the
original one. -/
theorem C10_update_absent_id_noop (data : StoreFile) (server_id status fieldName : String)
    (value : JVal) (h : pyMem data server_id = false) :
    ServerState.update_status data server_id status = (data, false) ∧
    ServerState.update_field data server_id fieldName value = (data, false) := by
  unfold ServerState.update_status ServerState.update_field
  simp [h]

/-- Witness for C10 at a concrete one-record store and an absent id. -/
theorem C10_update_absent_id_noop_witness :
    pyMem ([("abc123def456", [("status", JVal.jstr "running")])] : StoreFile) "zzz" = false ∧
    ServerState.update_status [("abc123def456", [("status", JVal.jstr "running")])] "zzz" "paused" =
      ([("abc123def456", [("status", JVal.jstr "running")])], false) ∧
    ServerState.update_field [("abc123def456", [("status", JVal.jstr "running")])] "zzz"
      "public_ip" (JVal.jstr "5.6.7.8") =
      ([("abc123def456", [("status", JVal.jstr "running")])], false) := by
  refine ⟨by rfl, ?_⟩
  have h := C10_update_absent_id_noop
    [("abc123def456", [("status", JVal.jstr "running")])] "zzz" "paused" "public_ip"
    (JVal.jstr "5.6.7.8") (by rfl)
  exact h

/-! ## Lookup lemmas for inserts and field maps -/

theorem pyLookup_map_fields {β γ : Type} (g : (String × β) → γ)
    (l : List (String × β)) (k : String) :
    pyLookup (l.map (fun f => (f.1, g f))) k = (l.find? (fun f => f.1 = k)).map g := by
  induction l with
  | nil => rfl
  | cons f t ih =>
    by_cases h : f.1 = k
    · unfold pyLookup
      rw [List.map_cons, List.find?_cons_of_pos _ (by simp [h]),
        List.find?_cons_of_pos _ (by simp [h])]
      rfl
    · unfold pyLookup
      rw [List.map_cons, List.find?_cons_of_neg _ (by simp [h]),
        List.find?_cons_of_neg _ (by simp [h])]
      exact ih

theorem pyLookup_overwrite {β : Type} {d : PyDict β} {k : String} (v : β)
    (h : (d.find? (fun kv => kv.1 = k)).isSome = true) :
    pyLookup (d.map (fun kv => if kv.1 = k then (k, v) else kv)) k = some v := by
  induction d with
  | nil => simp [List.find?] at h
  | cons a t ih =>
    by_cases ha : a.1 = k
    · unfold pyLookup
      rw [List.map_cons, if_pos ha, List.find?_cons_of_pos _ (by simp)]
      rfl
    · unfold pyLookup
      rw [List.map_cons, if_neg ha, List.find?_cons_of_neg _ (by simp [ha])]
      rw [List.find?_cons_of_neg _ (by simp [ha])] at h
      exact ih h

theorem pyLookup_pyInsert_self {β : Type} (d : PyDict β) (k : String) (v : β) :
    pyLookup (pyInsert d k v) k = some v := by
  unfold pyInsert
  by_cases h : (d.find? (fun kv => kv.1 = k)).isSome = true
  · rw [if_pos h]
    exact pyLookup_overwrite v h
  · rw [if_neg h]
    unfold pyLookup
    rw [List.find?_append]
    have hnone : d.find? (fun kv => kv.1 = k) = none := by
      cases hf : d.find? (fun kv => kv.1 = k)
      · rfl
      · rw [hf] at h; simp at h
    rw [hnone]
    simp

theorem pyLookup_pyInsert_ne {β : Type} (d : PyDict β) (k : String) (v : β) (k' : String)
    (h : k' ≠ k) : pyLookup (pyInsert d k v) k' = pyLookup d k' := by
  unfold pyInsert
  by_cases hmem : (d.find? (fun kv => kv.1 = k)).isSome = true
  · rw [if_pos hmem]
    clear hmem
    induction d with
    | nil => rfl
    | cons a t ih =>
      by_cases ha : a.1 = k
      · unfold pyLookup
        rw [List.map_cons, if_pos ha]
        rw [List.find?_cons_of_neg _ (by simp only [decide_eq_true_eq]; exact fun hh => h hh.symm),
          List.find?_cons_of_neg _ ?hpred]
        · exact ih
        case hpred =>
          simp only [decide_eq_true_eq]
          intro hh
          rw [hh] at ha
          exact h ha
      · unfold pyLookup
        rw [List.map_cons, if_neg ha]
        by_cases ha' : a.1 = k'
        · rw [List.find?_cons_of_pos _ (by simp [ha']), List.find?_cons_of_pos _ (by simp [ha'])]
        · rw [List.find?_cons_of_neg _ (by simp [ha']), List.find?_cons_of_neg _ (by simp [ha'])]
          exact ih
  · rw [if_neg hmem]
    unfold pyLookup
    rw [List.find?_append]
    have : List.find? (fun kv => kv.1 = k') [(k, v)] = none := by
      simp [List.find?, Ne.symm h]
    rw [this]
    simp


/-! ## Claim C7: schema tolerance of record loading -/

/-- The value a dataclass field receives: the kwarg when present, else
the declared default. -/
def fieldValue (kwargs : PyDict JVal) (f : String × Option JVal) : JVal :=
  match pyLookup kwargs f.1 with
  | some v => v
  | none => f.2.getD (.jstr "")

theorem fillFields_ok {fields : List (String × Option JVal)} {kwargs : PyDict JVal}
    (h : ∀ f ∈ fields, f.2 = none → (pyLookup kwargs f.1).isSome = true) :
    fillFields fields kwargs = .ok (fields.map (fun f => (f.1, fieldValue kwargs f))) := by
  induction fields with
  | nil => rfl
  | cons f t ih =>
    obtain ⟨fname, dflt⟩ := f
    have ht : ∀ f ∈ t, f.2 = none → (pyLookup kwargs f.1).isSome = true :=
      fun f hf => h f (List.mem_cons_of_mem _ hf)
    simp only [fillFields]
    cases hlk : pyLookup kwargs fname with
    | some v =>
      rw [ih ht]
      simp [fieldValue, hlk, Except.map]
    | none =>
      cases hd : dflt with
      | some d =>
        rw [ih ht]
        simp [fieldValue, hlk, Except.map]
      | none =>
        have := h (fname, none) (by rw [hd] at *; exact List.mem_cons_self _ _) rfl
        rw [hlk] at this
        simp at this

theorem bindDataclassArgs_ok {fields : List (String × Option JVal)} {kwargs : PyDict JVal}
    (hkeys : ∀ kv ∈ kwargs, (fields.find? (fun f => f.1 = kv.1)).isSome = true)
    (hreq : ∀ f ∈ fields, f.2 = none → (pyLookup kwargs f.1).isSome = true) :
    bindDataclassArgs fields kwargs =
      .ok (fields.map (fun f => (f.1, fieldValue kwargs f))) := by
  unfold bindDataclassArgs
  have hnone : kwargs.find? (fun kv => (fields.find? (fun f => f.1 = kv.1)).isNone) = none := by
    rw [List.find?_eq_none]
    intro kv hkv
    have hks := hkeys kv hkv
    cases hf : fields.find? (fun f => f.1 = kv.1) with
    | none => rw [hf] at hks; simp at hks
    | some x => simp [hf]
  rw [hnone, fillFields_ok hreq]

/-- Record lookups through `__post_init__` are unchanged for fields other
than `launch_time` and `container_name`. -/
theorem pyLookup_postInit_other (now : String) (attrs : PyDict JVal) (k : String)
    (h1 : k ≠ "launch_time") (h2 : k ≠ "container_name") :
    pyLookup (serverRecordPostInit now attrs) k = pyLookup attrs k := by
  unfold serverRecordPostInit
  by_cases c1 : jvalFalsy ((pyLookup attrs "launch_time").getD (.jstr "")) = true
  · rw [if_pos c1]
    by_cases c2 : jvalFalsy
        ((pyLookup (pyInsert attrs "launch_time" (.jstr now)) "container_name").getD (.jstr ""))
        = true
    · rw [if_pos c2, pyLookup_pyInsert_ne _ _ _ _ h2, pyLookup_pyInsert_ne _ _ _ _ h1]
    · rw [if_neg c2, pyLookup_pyInsert_ne _ _ _ _ h1]
  · rw [if_neg c1]
    by_cases c2 : jvalFalsy ((pyLookup attrs "container_name").getD (.jstr "")) = true
    · rw [if_pos c2, pyLookup_pyInsert_ne _ _ _ _ h2]
    · rw [if_neg c2]

/-- **C7 counterexample.** The stored record has every required field plus
one unknown field `extra_field`; `ServerState.get` raises `TypeError`
(the dataclass constructor rejects the unexpected keyword) instead of
ignoring it. -/
theorem C7_unknown_field_counterexample :
    ServerState.get "2025-01-01T00:00:00+00:00"
      [("srv-old",
        [("id", JVal.jstr "srv-old"), ("game", JVal.jstr "factorio"),
         ("name", JVal.jstr "fact-old"), ("instance_id", JVal.jstr "i-old"),
         ("region", JVal.jstr "us-east-1"), ("public_ip", JVal.jstr "1.2.3.4"),
         ("ports", JVal.jdict [("34197/udp", JVal.jnum 34197)]),
         ("status", JVal.jstr "running"), ("security_group_id", JVal.jstr "sg-old"),
         ("extra_field", JVal.jstr "surprise")])]
      "srv-old" = .error "unexpected keyword argument: extra_field" := by
  rfl


theorem jGetStr_of_lookup_fieldValue {base r : PyDict JVal} {k : String}
    (h : pyLookup base k = some (fieldValue r (k, none))) : jGetStr base k = jGetStr r k := by
  unfold jGetStr
  rw [h]
  unfold fieldValue
  cases hc : pyLookup r k with
  | none => rfl
  | some v => cases v <;> rfl

/-- **C7 (amended).** Loading a persisted server entry through
`ServerState.get` supplies typed defaults for missing *defaulted* fields
(empty string, empty map, generated timestamp, derived container name) —
but unknown fields are **not** ignored: they make the load raise
`TypeError` (see the counterexample), so success requires every stored
key to be a known field.  With every key known and all required fields
present, the load succeeds and defaults the missing ones. -/
theorem C7_missing_fields_defaulted (now : String) (data : StoreFile) (server_id : String)
    (r : PyDict JVal) (hlook : pyLookup data server_id = some r)
    (hknown : ∀ kv ∈ r, (serverRecordFields.find? (fun f => f.1 = kv.1)).isSome = true)
    (hreq : ∀ f ∈ serverRecordFields, f.2 = none → (pyLookup r f.1).isSome = true) :
    ∃ attrs, ServerState.get now data server_id = .ok (some attrs) ∧
      (pyLookup r "rcon_password" = none → pyLookup attrs "rcon_password" = some (.jstr "")) ∧
      (pyLookup r "config" = none → pyLookup attrs "config" = some (.jdict [])) ∧
      (pyLookup r "eip_allocation_id" = none →
        pyLookup attrs "eip_allocation_id" = some (.jstr "")) ∧
      (pyLookup r "eip_public_ip" = none → pyLookup attrs "eip_public_ip" = some (.jstr "")) ∧
      (pyLookup r "launch_time" = none → pyLookup attrs "launch_time" = some (.jstr now)) ∧
      (pyLookup r "container_name" = none →
        pyLookup attrs "container_name" =
          some (.jstr ("gsm-" ++ jGetStr r "game" ++ "-" ++ pyStrTake (jGetStr r "id") 8))) := by
  have hbind := bindDataclassArgs_ok hknown hreq
  have hbaseLookup : ∀ k, pyLookup (serverRecordFields.map (fun f => (f.1, fieldValue r f))) k =
      (serverRecordFields.find? (fun f => f.1 = k)).map (fieldValue r) :=
    fun k => pyLookup_map_fields (fieldValue r) serverRecordFields k
  refine ⟨serverRecordPostInit now (serverRecordFields.map (fun f => (f.1, fieldValue r f))),
    ?_, ?_, ?_, ?_, ?_, ?_, ?_⟩
  · unfold ServerState.get
    rw [hlook]
    simp only [hbind, Except.map]
  · intro habs
    rw [pyLookup_postInit_other now _ _ (by decide) (by decide), hbaseLookup]
    rw [show serverRecordFields.find? (fun f => f.1 = "rcon_password") =
      some ("rcon_password", some (JVal.jstr "")) from rfl]
    simp [fieldValue, habs]
  · intro habs
    rw [pyLookup_postInit_other now _ _ (by decide) (by decide), hbaseLookup]
    rw [show serverRecordFields.find? (fun f => f.1 = "config") =
      some ("config", some (JVal.jdict [])) from rfl]
    simp [fieldValue, habs]
  · intro habs
    rw [pyLookup_postInit_other now _ _ (by decide) (by decide), hbaseLookup]
    rw [show serverRecordFields.find? (fun f => f.1 = "eip_allocation_id") =
      some ("eip_allocation_id", some (JVal.jstr "")) from rfl]
    simp [fieldValue, habs]
  · intro habs
    rw [pyLookup_postInit_other now _ _ (by decide) (by decide), hbaseLookup]
    rw [show serverRecordFields.find? (fun f => f.1 = "eip_public_ip") =
      some ("eip_public_ip", some (JVal.jstr "")) from rfl]
    simp [fieldValue, habs]
  · intro habs
    have hb : pyLookup (serverRecordFields.map (fun f => (f.1, fieldValue r f))) "launch_time" =
        some (JVal.jstr "") := by
      rw [hbaseLookup]
      rw [show serverRecordFields.find? (fun f => f.1 = "launch_time") =
        some ("launch_time", some (JVal.jstr "")) from rfl]
      simp [fieldValue, habs]
    unfold serverRecordPostInit
    rw [hb]
    simp only [Option.getD_some]
    rw [if_pos (show jvalFalsy (JVal.jstr "") = true from rfl)]
    by_cases c2 : jvalFalsy ((pyLookup
        (pyInsert (serverRecordFields.map (fun f => (f.1, fieldValue r f)))
          "launch_time" (.jstr now)) "container_name").getD (.jstr "")) = true
    · rw [if_pos c2, pyLookup_pyInsert_ne _ _ _ _ (by decide), pyLookup_pyInsert_self]
    · rw [if_neg c2, pyLookup_pyInsert_self]
  · intro habs
    have hbcn : pyLookup (serverRecordFields.map (fun f => (f.1, fieldValue r f)))
        "container_name" = some (JVal.jstr "") := by
      rw [hbaseLookup]
      rw [show serverRecordFields.find? (fun f => f.1 = "container_name") =
        some ("container_name", some (JVal.jstr "")) from rfl]
      simp [fieldValue, habs]
    have hgame : pyLookup (serverRecordFields.map (fun f => (f.1, fieldValue r f))) "game" =
        some (fieldValue r ("game", none)) := by
      rw [hbaseLookup]
      rw [show serverRecordFields.find? (fun f => f.1 = "game") =
        some ("game", none) from rfl]
      rfl
    have hid : pyLookup (serverRecordFields.map (fun f => (f.1, fieldValue r f))) "id" =
        some (fieldValue r ("id", none)) := by
      rw [hbaseLookup]
      rw [show serverRecordFields.find? (fun f => f.1 = "id") = some ("id", none) from rfl]
      rfl
    unfold serverRecordPostInit
    by_cases c1 : jvalFalsy ((pyLookup (serverRecordFields.map (fun f => (f.1, fieldValue r f)))
        "launch_time").getD (.jstr "")) = true
    · rw [if_pos c1]
      rw [if_pos (by rw [pyLookup_pyInsert_ne _ _ _ _ (by decide), hbcn]; rfl)]
      rw [pyLookup_pyInsert_self]
      have hg2 : jGetStr (pyInsert (serverRecordFields.map (fun f => (f.1, fieldValue r f)))
          "launch_time" (.jstr now)) "game" = jGetStr r "game" := by
        apply jGetStr_of_lookup_fieldValue
        rw [pyLookup_pyInsert_ne _ _ _ _ (by decide), hgame]
      have hi2 : jGetStr (pyInsert (serverRecordFields.map (fun f => (f.1, fieldValue r f)))
          "launch_time" (.jstr now)) "id" = jGetStr r "id" := by
        apply jGetStr_of_lookup_fieldValue
        rw [pyLookup_pyInsert_ne _ _ _ _ (by decide), hid]
      rw [hg2, hi2]
    · rw [if_neg c1]
      rw [if_pos (by rw [hbcn]; rfl)]
      rw [pyLookup_pyInsert_self]
      have hg2 := jGetStr_of_lookup_fieldValue hgame
      have hi2 := jGetStr_of_lookup_fieldValue hid
      rw [hg2, hi2]

/-- Witness for the amended C7 at a pre-EIP-era stored record (the shape
`test_server_record_backward_compat_no_eip_fields` persists, further
missing `launch_time`, `container_name`, `rcon_password` and `config`). -/
theorem C7_missing_fields_defaulted_witness :
    ∃ attrs, ServerState.get "2025-01-01T00:00:00+00:00"
      [("srv1", [("id", JVal.jstr "srv1deadbeef"), ("game", JVal.jstr "factorio"),
        ("name", JVal.jstr "fact-old"), ("instance_id", JVal.jstr "i-old"),
        ("region", JVal.jstr "us-east-1"), ("public_ip", JVal.jstr "1.2.3.4"),
        ("ports", JVal.jdict [("34197/udp", JVal.jnum 34197)]),
        ("status", JVal.jstr "running"), ("security_group_id", JVal.jstr "sg-old")])]
      "srv1" = .ok (some attrs) ∧
      (pyLookup [("id", JVal.jstr "srv1deadbeef"), ("game", JVal.jstr "factorio"),
        ("name", JVal.jstr "fact-old"), ("instance_id", JVal.jstr "i-old"),
        ("region", JVal.jstr "us-east-1"), ("public_ip", JVal.jstr "1.2.3.4"),
        ("ports", JVal.jdict [("34197/udp", JVal.jnum 34197)]),
        ("status", JVal.jstr "running"), ("security_group_id", JVal.jstr "sg-old")]
        "rcon_password" = none → pyLookup attrs "rcon_password" = some (.jstr "")) ∧
      (pyLookup [("id", JVal.jstr "srv1deadbeef"), ("game", JVal.jstr "factorio"),
        ("name", JVal.jstr "fact-old"), ("instance_id", JVal.jstr "i-old"),
        ("region", JVal.jstr "us-east-1"), ("public_ip", JVal.jstr "1.2.3.4"),
        ("ports", JVal.jdict [("34197/udp", JVal.jnum 34197)]),
        ("status", JVal.jstr "running"), ("security_group_id", JVal.jstr "sg-old")]
        "config" = none → pyLookup attrs "config" = some (.jdict [])) ∧
      (pyLookup [("id", JVal.jstr "srv1deadbeef"), ("game", JVal.jstr "factorio"),
        ("name", JVal.jstr "fact-old"), ("instance_id", JVal.jstr "i-old"),
        ("region", JVal.jstr "us-east-1"), ("public_ip", JVal.jstr "1.2.3.4"),
        ("ports", JVal.jdict [("34197/udp", JVal.jnum 34197)]),
        ("status", JVal.jstr "running"), ("security_group_id", JVal.jstr "sg-old")]
        "eip_allocation_id" = none → pyLookup attrs "eip_allocation_id" = some (.jstr "")) ∧
      (pyLookup [("id", JVal.jstr "srv1deadbeef"), ("game", JVal.jstr "factorio"),
        ("name", JVal.jstr "fact-old"), ("instance_id", JVal.jstr "i-old"),
        ("region", JVal.jstr "us-east-1"), ("public_ip", JVal.jstr "1.2.3.4"),
        ("ports", JVal.jdict [("34197/udp", JVal.jnum 34197)]),
        ("status", JVal.jstr "running"), ("security_group_id", JVal.jstr "sg-old")]
        "eip_public_ip" = none → pyLookup attrs "eip_public_ip" = some (.jstr "")) ∧
      (pyLookup [("id", JVal.jstr "srv1deadbeef"), ("game", JVal.jstr "factorio"),
        ("name", JVal.jstr "fact-old"), ("instance_id", JVal.jstr "i-old"),
        ("region", JVal.jstr "us-east-1"), ("public_ip", JVal.jstr "1.2.3.4"),
        ("ports", JVal.jdict [("34197/udp", JVal.jnum 34197)]),
        ("status", JVal.jstr "running"), ("security_group_id", JVal.jstr "sg-old")]
        "launch_time" = none →
        pyLookup attrs "launch_time" = some (.jstr "2025-01-01T00:00:00+00:00")) ∧
      (pyLookup [("id", JVal.jstr "srv1deadbeef"), ("game", JVal.jstr "factorio"),
        ("name", JVal.jstr "fact-old"), ("instance_id", JVal.jstr "i-old"),
        ("region", JVal.jstr "us-east-1"), ("public_ip", JVal.jstr "1.2.3.4"),
        ("ports", JVal.jdict [("34197/udp", JVal.jnum 34197)]),
        ("status", JVal.jstr "running"), ("security_group_id", JVal.jstr "sg-old")]
        "container_name" = none →
        pyLookup attrs "container_name" = some (.jstr ("gsm-" ++
          jGetStr [("id", JVal.jstr "srv1deadbeef"), ("game", JVal.jstr "factorio"),
            ("name", JVal.jstr "fact-old"), ("instance_id", JVal.jstr "i-old"),
            ("region", JVal.jstr "us-east-1"), ("public_ip", JVal.jstr "1.2.3.4"),
            ("ports", JVal.jdict [("34197/udp", JVal.jnum 34197)]),
            ("status", JVal.jstr "running"), ("security_group_id", JVal.jstr "sg-old")]
            "game" ++ "-" ++
          pyStrTake (jGetStr [("id", JVal.jstr "srv1deadbeef"), ("game", JVal.jstr "factorio"),
            ("name", JVal.jstr "fact-old"), ("instance_id", JVal.jstr "i-old"),
            ("region", JVal.jstr "us-east-1"), ("public_ip", JVal.jstr "1.2.3.4"),
            ("ports", JVal.jdict [("34197/udp", JVal.jnum 34197)]),
            ("status", JVal.jstr "running"), ("security_group_id", JVal.jstr "sg-old")]
            "id") 8))) :=
  C7_missing_fields_defaulted "2025-01-01T00:00:00+00:00" _ "srv1" _ (by rfl)
    (by
      intro kv hkv
      simp only [List.mem_cons, List.not_mem_nil, or_false] at hkv
      rcases hkv with rfl | rfl | rfl | rfl | rfl | rfl | rfl | rfl | rfl <;> rfl)
    (by
      intro f hf hnone
      simp only [serverRecordFields, List.mem_cons, List.not_mem_nil, or_false] at hf
      rcases hf with rfl | rfl | rfl | rfl | rfl | rfl | rfl | rfl | rfl | rfl | rfl | rfl |
        rfl | rfl | rfl <;>
        first | rfl | exact Option.noConfusion hnone)


/-- Witness for C4 at the two-port set used by the factorio game
descriptor: `{34197/udp, 27015/tcp}`. -/
theorem C4_ports_tag_round_trip_witness :
    ValidPortSet [⟨34197, "udp"⟩, ⟨27015, "tcp"⟩] ∧
    pyDictEq (_parse_ports_tag (portsTag [⟨34197, "udp"⟩, ⟨27015, "tcp"⟩]))
      (portsDict [⟨34197, "udp"⟩, ⟨27015, "tcp"⟩]) :=
  ⟨by constructor
      · decide
      · intro p hp
        simp only [List.mem_cons, List.not_mem_nil, or_false] at hp
        rcases hp with rfl | rfl
        · exact Or.inr rfl
        · exact Or.inl rfl,
   C4_ports_tag_round_trip [⟨34197, "udp"⟩, ⟨27015, "tcp"⟩]
     ⟨by decide, by
        intro p hp
        simp only [List.mem_cons, List.not_mem_nil, or_false] at hp
        rcases hp with rfl | rfl
        · exact Or.inr rfl
        · exact Or.inl rfl⟩⟩

/-! ## Claim C3: reconcile status mapping

`Provisioner.EC2_STATE_MAP` (provisioner.py lines 120–125), the status
computation in `Provisioner.reconcile` (lines 1072–1076) and in
`Provisioner._refresh_record` (lines 249–253). -/

/-- `EC2_STATE_MAP` (provisioner.py lines 120–125). -/
def EC2_STATE_MAP : PyDict String :=
  [("pending", "launching"), ("running", "running"),
   ("stopping", "paused"), ("stopped", "paused")]

/-- Status computed by `reconcile` for a record whose VM is in the cloud
index (lines 1072–1076): `EC2_STATE_MAP.get(inst["state"], record.status)`
then preserve `stopped` when local state or the `container-stopped`
tag says so. -/
def reconcileNewStatus (state localStatus containerStoppedTag : String) : String :=
  let n := (pyLookup EC2_STATE_MAP state).getD localStatus
  if n = "running" then
    if localStatus = "stopped" ∨ containerStoppedTag = "true" then "stopped" else n
  else n

/-- Status computed by `_refresh_record` (lines 249–253); textually the
same logic as the reconcile loop. -/
def refreshNewStatus (state localStatus containerStoppedTag : String) : String :=
  let n := (pyLookup EC2_STATE_MAP state).getD localStatus
  if n = "running" then
    if localStatus = "stopped" ∨ containerStoppedTag = "true" then "stopped" else n
  else n

/-- The status mapping as the specification words it: `pending→launching`,
`running→running`, `stopping→paused`, `stopped→paused`, except that a
would-be `running` becomes `stopped` when the local status is already
`stopped` or the container-stopped tag equals `"true"`. -/
def specNewStatus (state localStatus containerStoppedTag : String) : String :=
  if state = "pending" then "launching"
  else if state = "running" then
    if localStatus = "stopped" ∨ containerStoppedTag = "true" then "stopped" else "running"
  else "paused"

/-- **C3.** For every local record whose VM appears in the reconciler's
cloud index (`find_gsm_instances` filters out `terminated` and
`shutting-down`, leaving the four lifecycle states below), both
`reconcile` and the single-record refresh compute the record's new status
from the cloud lifecycle state exactly as the spec's mapping with the
stopped-preservation exception. -/
theorem C3_reconcile_status_mapping (state localStatus containerStoppedTag : String)
    (h : state = "pending" ∨ state = "running" ∨ state = "stopping" ∨ state = "stopped") :
    reconcileNewStatus state localStatus containerStoppedTag =
      specNewStatus state localStatus containerStoppedTag ∧
    refreshNewStatus state localStatus containerStoppedTag =
      specNewStatus state localStatus containerStoppedTag := by
  rcases h with rfl | rfl | rfl | rfl <;> exact ⟨rfl, rfl⟩

/-- Witness for C3: a cloud-`running` VM whose record is locally
`stopped` keeps status `stopped`. -/
theorem C3_reconcile_status_mapping_witness :
    reconcileNewStatus "running" "stopped" "" = specNewStatus "running" "stopped" "" ∧
    refreshNewStatus "running" "stopped" "" = specNewStatus "running" "stopped" "" :=
  C3_reconcile_status_mapping "running" "stopped" "" (Or.inr (Or.inl rfl))

/-! ## Claim C5: the security-group call site

`get_or_create_security_group` (security_groups.py lines 6–8) requires a
`ssh_cidr` argument with no default; the launch call site
(provisioner.py lines 416–419) does not pass it. -/

/-- A parameter of a Python function: its name and whether it has a
default value. -/
structure PyParam where
  name : String
  hasDefault : Bool
deriving Repr, DecidableEq

/-- Python keyword-argument binding: `TypeError` on an unknown keyword or
on a required parameter that no keyword supplies. -/
def bindPyCall (params : List PyParam) (kwargs : List String) : Except String Unit :=
  match kwargs.find? (fun k => (params.find? (fun p => p.name = k)).isNone) with
  | some k => .error ("unexpected keyword argument: " ++ k)
  | none =>
    match params.find? (fun p => !p.hasDefault && !(kwargs.contains p.name)) with
    | some p => .error ("missing required argument: " ++ p.name)
    | none => .ok ()

/-- The signature of `get_or_create_security_group` (security_groups.py
lines 6–8): `region, game_name, ports, ssh_cidr` are required, `vpc_id`
defaults to `None`. -/
def get_or_create_security_group_params : List PyParam :=
  [⟨"region", false⟩, ⟨"game_name", false⟩, ⟨"ports", false⟩,
   ⟨"ssh_cidr", false⟩, ⟨"vpc_id", true⟩]

/-- The keywords the provisioner passes at launch (provisioner.py lines
416–419): `region`, `game_name`, `ports`, `vpc_id` — no `ssh_cidr`. -/
def provisioner_sg_call_kwargs : List String := ["region", "game_name", "ports", "vpc_id"]

/-- **C5 (code bug).** Evaluating the launch-time call to
`get_or_create_security_group` at its call site: binding fails with
`TypeError: missing required argument ssh_cidr`, so no security group
with the claimed SSH `0.0.0.0/0` ingress is ever ensured.  The
repository's own tests (`tests/aws/test_security_groups.py`) still call
the four-parameter signature and assert the `0.0.0.0/0` rule, so the
claim reflects the intent and the call site is the slip. -/
theorem C5_sg_call_missing_ssh_cidr :
    bindPyCall get_or_create_security_group_params provisioner_sg_call_kwargs =
      .error "missing required argument: ssh_cidr" := by
  rfl


/-! ## Typed server records and the provisioner-level store

For the provisioner flows we model `ServerRecord` with its typed fields
(state.py lines 10–26) and the store as an id-keyed dict of records.
`update_field(id, name, value)` just sets the named attribute, so the
typed model expresses it as a per-field record update. -/

structure ServerRecord where
  id : String
  game : String
  name : String
  instance_id : String
  region : String
  public_ip : String
  ports : PyDict Int
  status : String
  security_group_id : String
  launch_time : String
  container_name : String
  rcon_password : String
  config : PyDict String
  eip_allocation_id : String
  eip_public_ip : String
deriving Repr, DecidableEq

/-- The deserialized content of `servers.json`. -/
abbrev Store := PyDict ServerRecord

/-- `dict.pop(server_id, None)` (state.py `delete`). -/
def pyPop {β : Type} (d : PyDict β) (k : String) : PyDict β :=
  d.filter (fun kv => ¬ (kv.1 = k))

/-- `ServerState.save` (state.py lines 56–59): overwrite by id. -/
def saveRecord (data : Store) (record : ServerRecord) : Store :=
  pyInsert data record.id record

/-- `ServerState.delete` (state.py lines 83–86). -/
def deleteRecord (data : Store) (server_id : String) : Store :=
  pyPop data server_id

/-- `ServerState.update_status` on typed records (state.py lines 88–92). -/
def updateStatus (data : Store) (server_id status : String) : Store :=
  if pyMem data server_id then
    pyModify data server_id (fun r => { r with status := status })
  else data

/-- `ServerState.update_field` on typed records (state.py lines 98–102):
setting the named field is a record update. -/
def updateRecord (data : Store) (server_id : String) (f : ServerRecord → ServerRecord) : Store :=
  if pyMem data server_id then pyModify data server_id f else data

theorem pyLookup_pyPop_self {β : Type} (d : PyDict β) (k : String) :
    pyLookup (pyPop d k) k = none := by
  unfold pyLookup pyPop
  have hnone : List.find? (fun kv => kv.1 = k) (d.filter (fun kv => ¬(kv.1 = k))) = none := by
    rw [List.find?_eq_none]
    intro kv hkv
    have hmem := List.of_mem_filter hkv
    simp only [decide_eq_true_eq] at hmem ⊢
    exact hmem
  rw [hnone]
  rfl

theorem pyLookup_pyModify_self {β : Type} {d : PyDict β} {k : String} {v : β}
    (f : β → β) (h : pyLookup d k = some v) :
    pyLookup (pyModify d k f) k = some (f v) := by
  induction d with
  | nil => simp [pyLookup, List.find?] at h
  | cons a t ih =>
    by_cases ha : a.1 = k
    · have h2 : a.2 = v := by
        unfold pyLookup at h
        rw [List.find?_cons_of_pos _ (by simp [ha])] at h
        simpa using h
      unfold pyLookup pyModify
      rw [List.map_cons, if_pos ha, List.find?_cons_of_pos _ (by simp [ha])]
      simp [h2]
    · unfold pyLookup at h ⊢
      rw [List.find?_cons_of_neg _ (by simp [ha])] at h
      unfold pyModify
      rw [List.map_cons, if_neg ha, List.find?_cons_of_neg _ (by simp [ha])]
      exact ih h

theorem pyMem_of_lookup {β : Type} {d : PyDict β} {k : String} {v : β}
    (h : pyLookup d k = some v) : pyMem d k = true := by
  unfold pyLookup at h
  unfold pyMem
  cases hf : d.find? (fun kv => kv.1 = k)
  · rw [hf] at h; simp at h
  · simp

theorem pyLookup_updateRecord_self {d : Store} {k : String} {v : ServerRecord}
    (f : ServerRecord → ServerRecord) (h : pyLookup d k = some v) :
    pyLookup (updateRecord d k f) k = some (f v) := by
  unfold updateRecord
  rw [if_pos (pyMem_of_lookup h)]
  exact pyLookup_pyModify_self f h

theorem pyLookup_updateStatus_self {d : Store} {k : String} {v : ServerRecord}
    (status : String) (h : pyLookup d k = some v) :
    pyLookup (updateStatus d k status) k = some { v with status := status } := by
  unfold updateStatus
  rw [if_pos (pyMem_of_lookup h)]
  exact pyLookup_pyModify_self _ h

/-! ## Claim C1: the launch cleanup contract

`Provisioner.launch`, lines 586–604: the `except BaseException` handler
that runs when anything after the initial `status="launching"` save
throws. -/

/-- Observable outcome of the cleanup handler. -/
structure CleanupOutcome where
  store : Store
  sshOpenAfter : Bool          -- an SSH session remains open
  amiDeregisterAttempted : Bool
  terminateAttempted : Bool
  raisesOriginal : Bool        -- the original exception is re-raised
deriving Repr, DecidableEq

/-- The cleanup handler (provisioner.py lines 586–604): close SSH if
open, best-effort deregister a temporary restore AMI, then attempt
`terminate_instance`.  If termination raises, re-raise the original
error with the record kept; if it succeeds, delete the record and
re-raise. -/
def launchCleanup (store : Store) (server_id : String)
    (restore_ami terminate_ok : Bool) : CleanupOutcome :=
  if terminate_ok then
    { store := deleteRecord store server_id
      sshOpenAfter := false
      amiDeregisterAttempted := restore_ami
      terminateAttempted := true
      raisesOriginal := true }
  else
    { store := store
      sshOpenAfter := false
      amiDeregisterAttempted := restore_ami
      terminateAttempted := true
      raisesOriginal := true }

/-- **C1.** If `Provisioner.launch` raises after the initial record was
persisted with status `launching`, the cleanup closes the SSH session,
deregisters any temporary restore image, and attempts to terminate the
instance; on termination success the record is deleted from the local
store, and on termination failure the record is preserved (status still
`launching`) and the original exception is re-raised. -/
theorem C1_launch_cleanup (store : Store) (server_id : String) (r : ServerRecord)
    (restore_ami : Bool)
    (hrec : pyLookup store server_id = some r) (hst : r.status = "launching") :
    (∀ terminate_ok,
      (launchCleanup store server_id restore_ami terminate_ok).sshOpenAfter = false ∧
      (launchCleanup store server_id restore_ami terminate_ok).amiDeregisterAttempted
        = restore_ami ∧
      (launchCleanup store server_id restore_ami terminate_ok).terminateAttempted = true ∧
      (launchCleanup store server_id restore_ami terminate_ok).raisesOriginal = true) ∧
    pyLookup (launchCleanup store server_id restore_ami true).store server_id = none ∧
    (pyLookup (launchCleanup store server_id restore_ami false).store server_id = some r ∧
      r.status = "launching") := by
  refine ⟨?_, ?_, ?_, hst⟩
  · intro terminate_ok
    cases terminate_ok <;> exact ⟨rfl, rfl, rfl, rfl⟩
  · unfold launchCleanup
    rw [if_pos rfl]
    exact pyLookup_pyPop_self store server_id
  · exact hrec

/-- A concrete record as the initial launch save writes it. -/
def sampleLaunchingRecord : ServerRecord :=
  { id := "srv1"
    game := "factorio"
    name := "f-1"
    instance_id := "i-1"
    region := "us-east-1"
    public_ip := ""
    ports := [("34197/udp", 34197)]
    status := "launching"
    security_group_id := "sg-1"
    launch_time := "t0"
    container_name := "gsm-factorio-srv1"
    rcon_password := ""
    config := []
    eip_allocation_id := ""
    eip_public_ip := "" }

/-- Witness for C1 at a one-record store holding a `launching` record. -/
theorem C1_launch_cleanup_witness :
    pyLookup [("srv1", sampleLaunchingRecord)] "srv1" = some sampleLaunchingRecord ∧
    pyLookup (launchCleanup [("srv1", sampleLaunchingRecord)] "srv1" true true).store
      "srv1" = none ∧
    pyLookup (launchCleanup [("srv1", sampleLaunchingRecord)] "srv1" true false).store
      "srv1" = some sampleLaunchingRecord := by
  have h := C1_launch_cleanup [("srv1", sampleLaunchingRecord)] "srv1"
    sampleLaunchingRecord true (by rfl) (by rfl)
  exact ⟨by rfl, h.2.1, h.2.2.1⟩

/-! ## Claim C8: pause persists `paused` before waiting

`Provisioner.pause`, lines 769–790: `stop_instance` inside `try`, with a
`stop_issued` flag; the `finally` persists `status = "paused"` as soon as
the stop call has returned; the stopped-waiter afterwards swallows all
errors. -/

/-- User-visible steps of the pause tail, in execution order. -/
inductive PauseEvent where
  | stopInstanceCall
  | persistPaused
  | deleteRecordEvent
  | waitForStopped
deriving Repr, DecidableEq

/-- How the `stop_instance` call ends (provisioner.py lines 771–781). -/
inductive StopInstanceOutcome where
  | ok
  | notFound         -- InvalidInstanceID.NotFound
  | incorrectState   -- IncorrectInstanceState
  | otherError
deriving Repr, DecidableEq

structure PauseResult where
  store : Store
  events : List PauseEvent
  raises : Bool
deriving Repr, DecidableEq

/-- The pause tail (provisioner.py lines 769–790), one arm per exception
path of the `try/except/finally`:
* stop returned: `stop_issued = True`, so the `finally` persists
  `paused`, then the waiter runs with its errors swallowed
  (`waiter_ok` does not influence the result);
* `NotFound`: delete the record and raise;
* `IncorrectInstanceState`: treat as already paused and return (the
  `finally` then persists `paused`);
* any other error: `stop_issued` is still `False`, so nothing is
  persisted and the error propagates. -/
def pauseTail (store : Store) (server_id : String)
    (outcome : StopInstanceOutcome) (_waiter_ok : Bool) : PauseResult :=
  match outcome with
  | .ok =>
    { store := updateStatus store server_id "paused"
      events := [.stopInstanceCall, .persistPaused, .waitForStopped]
      raises := false }
  | .notFound =>
    { store := deleteRecord store server_id
      events := [.stopInstanceCall, .deleteRecordEvent]
      raises := true }
  | .incorrectState =>
    { store := updateStatus store server_id "paused"
      events := [.stopInstanceCall, .persistPaused]
      raises := false }
  | .otherError =>
    { store := store
      events := [.stopInstanceCall]
      raises := true }

/-- **C8.** In `pause`, once the instance stop call has returned
successfully, `status = "paused"` is persisted immediately — the event
trace places `persistPaused` directly after the stop call and before the
wait loop — and any waiter error is swallowed: the result is the same
for a failing waiter, the record ends with status `paused`, and no
exception propagates. -/
theorem C8_pause_persists_before_wait (store : Store) (server_id : String)
    (r : ServerRecord) (hrec : pyLookup store server_id = some r) :
    ∀ waiter_ok,
      (pauseTail store server_id .ok waiter_ok).events =
        [.stopInstanceCall, .persistPaused, .waitForStopped] ∧
      pauseTail store server_id .ok waiter_ok = pauseTail store server_id .ok false ∧
      pyLookup (pauseTail store server_id .ok waiter_ok).store server_id =
        some { r with status := "paused" } ∧
      (pauseTail store server_id .ok waiter_ok).raises = false := by
  intro waiter_ok
  refine ⟨rfl, rfl, ?_, rfl⟩
  exact pyLookup_updateStatus_self "paused" hrec

/-- Witness for C8 at a one-record store holding a running record. -/
theorem C8_pause_persists_before_wait_witness :
    pyLookup [("srv1", { sampleLaunchingRecord with status := "running" })] "srv1" =
      some { sampleLaunchingRecord with status := "running" } ∧
    ((pauseTail [("srv1", { sampleLaunchingRecord with status := "running" })] "srv1"
        .ok false).events =
      [.stopInstanceCall, .persistPaused, .waitForStopped] ∧
      pauseTail [("srv1", { sampleLaunchingRecord with status := "running" })] "srv1"
          .ok false =
        pauseTail [("srv1", { sampleLaunchingRecord with status := "running" })] "srv1"
          .ok false ∧
      pyLookup (pauseTail [("srv1", { sampleLaunchingRecord with status := "running" })]
          "srv1" .ok false).store "srv1" =
        some { { sampleLaunchingRecord with status := "running" } with status := "paused" } ∧
      (pauseTail [("srv1", { sampleLaunchingRecord with status := "running" })] "srv1"
        .ok false).raises = false) :=
  ⟨by rfl,
   C8_pause_persists_before_wait
     [("srv1", { sampleLaunchingRecord with status := "running" })] "srv1"
     { sampleLaunchingRecord with status := "running" } (by rfl) false⟩

/-! ## Claim C9: pin_ip behavior by status

`Provisioner.pin_ip`, lines 896–923. -/

structure PinIpResult where
  store : Store
  associateAttempted : Bool
  eipReleased : Bool
  raises : Bool
deriving Repr, DecidableEq

/-- `pin_ip` (provisioner.py lines 896–923): fail when the record is
missing or already pinned; allocate an EIP; associate it — and update
`public_ip` — only when `record.status` is `running` or `stopped`
(releasing the address again if association raises); always persist
`eip_allocation_id` and `eip_public_ip`. -/
def pin_ip_run (store : Store) (server_id alloc_id eip_ip : String)
    (associate_ok : Bool) : PinIpResult :=
  match pyLookup store server_id with
  | none =>
    { store := store, associateAttempted := false, eipReleased := false, raises := true }
  | some record =>
    if record.eip_allocation_id ≠ "" then
      { store := store, associateAttempted := false, eipReleased := false, raises := true }
    else
      if record.status = "running" ∨ record.status = "stopped" then
        if associate_ok then
          let s1 := updateRecord store server_id (fun r => { r with public_ip := eip_ip })
          let s2 := updateRecord s1 server_id (fun r => { r with eip_allocation_id := alloc_id })
          let s3 := updateRecord s2 server_id (fun r => { r with eip_public_ip := eip_ip })
          { store := s3, associateAttempted := true, eipReleased := false, raises := false }
        else
          { store := store, associateAttempted := true, eipReleased := true, raises := true }
      else
        let s2 := updateRecord store server_id (fun r => { r with eip_allocation_id := alloc_id })
        let s3 := updateRecord s2 server_id (fun r => { r with eip_public_ip := eip_ip })
        { store := s3, associateAttempted := false, eipReleased := false, raises := false }

/-- **C9.** `pin_ip` always allocates an Elastic IP and records
`eip_allocation_id` and `eip_public_ip` on the record, but it associates
the address (updating `public_ip`) only when the record's status is
`running` or `stopped`; for any other status no association is attempted
and `public_ip` is left unchanged. -/
theorem C9_pin_ip_association_by_status (store : Store) (server_id alloc_id eip_ip : String)
    (associate_ok : Bool) (r : ServerRecord)
    (hrec : pyLookup store server_id = some r) (hfree : r.eip_allocation_id = "") :
    ((r.status = "running" ∨ r.status = "stopped") → associate_ok = true →
      (pin_ip_run store server_id alloc_id eip_ip associate_ok).associateAttempted = true ∧
      pyLookup (pin_ip_run store server_id alloc_id eip_ip associate_ok).store server_id =
        some { r with public_ip := eip_ip, eip_allocation_id := alloc_id, eip_public_ip := eip_ip } ∧
      (pin_ip_run store server_id alloc_id eip_ip associate_ok).raises = false) ∧
    (¬(r.status = "running" ∨ r.status = "stopped") →
      (pin_ip_run store server_id alloc_id eip_ip associate_ok).associateAttempted = false ∧
      pyLookup (pin_ip_run store server_id alloc_id eip_ip associate_ok).store server_id =
        some { r with eip_allocation_id := alloc_id, eip_public_ip := eip_ip } ∧
      (pin_ip_run store server_id alloc_id eip_ip associate_ok).raises = false) := by
  constructor
  · intro hstatus hok
    subst hok
    unfold pin_ip_run
    rw [hrec]
    simp only [hfree]
    rw [if_neg (by simp), if_pos hstatus, if_pos (by trivial)]
    refine ⟨rfl, ?_, rfl⟩
    have h1 := pyLookup_updateRecord_self
      (fun r => { r with public_ip := eip_ip }) hrec
    have h2 := pyLookup_updateRecord_self
      (fun r => { r with eip_allocation_id := alloc_id }) h1
    have h3 := pyLookup_updateRecord_self
      (fun r => { r with eip_public_ip := eip_ip }) h2
    exact h3
  · intro hstatus
    unfold pin_ip_run
    rw [hrec]
    simp only [hfree]
    rw [if_neg (by simp), if_neg hstatus]
    refine ⟨rfl, ?_, rfl⟩
    have h2 := pyLookup_updateRecord_self
      (fun r => { r with eip_allocation_id := alloc_id }) hrec
    have h3 := pyLookup_updateRecord_self
      (fun r => { r with eip_public_ip := eip_ip }) h2
    exact h3

/-- Witness for C9, exercising both branches: a `running` record gets
associated and its `public_ip` set; a `launching` record gets the EIP
fields recorded with no association and `public_ip` untouched. -/
theorem C9_pin_ip_association_by_status_witness :
    (pyLookup (pin_ip_run [("srv1", { sampleLaunchingRecord with status := "running" })]
        "srv1" "eipalloc-1" "5.6.7.8" true).store "srv1" =
      some { { sampleLaunchingRecord with status := "running" } with public_ip := "5.6.7.8", eip_allocation_id := "eipalloc-1", eip_public_ip := "5.6.7.8" }) ∧
    ((pin_ip_run [("srv1", sampleLaunchingRecord)] "srv1" "eipalloc-1" "5.6.7.8"
        true).associateAttempted = false ∧
      pyLookup (pin_ip_run [("srv1", sampleLaunchingRecord)] "srv1" "eipalloc-1"
          "5.6.7.8" true).store "srv1" =
        some { sampleLaunchingRecord with eip_allocation_id := "eipalloc-1", eip_public_ip := "5.6.7.8" }) := by
  have hrun := C9_pin_ip_association_by_status
    [("srv1", { sampleLaunchingRecord with status := "running" })] "srv1" "eipalloc-1"
    "5.6.7.8" true { sampleLaunchingRecord with status := "running" } (by rfl) (by rfl)
  have hlaunching := C9_pin_ip_association_by_status
    [("srv1", sampleLaunchingRecord)] "srv1" "eipalloc-1" "5.6.7.8" true
    sampleLaunchingRecord (by rfl) (by rfl)
  refine ⟨(hrun.1 (Or.inl rfl) rfl).2.1, ?_, ?_⟩
  · exact (hlaunching.2 (by simp [sampleLaunchingRecord])).1
  · exact (hlaunching.2 (by simp [sampleLaunchingRecord])).2.1


/-! ## Claim C6: required-config validation before any cloud side effect

`Provisioner.launch` lines 308–387: the precondition phase.  The game
descriptor is reduced to the fields this path reads; config files enter
already parsed (`_parse_env_file` / `_parse_lgsm_config` produce a dict),
and the `secrets.token_urlsafe(16)` values are a parameter `gen`. -/

structure GameDefinition where
  name : String
  defaults : PyDict String
  lgsm_server_code : Option String
  rcon_password_key : Option String
  password_keys : List String
  required_config : List String
deriving Repr, DecidableEq

/-- Python `d.update(other)`. -/
def pyUpdate {β : Type} (d other : PyDict β) : PyDict β :=
  other.foldl (fun acc kv => pyInsert acc kv.1 kv.2) d

/-- The container environment built by `launch` (provisioner.py lines
338–360): defaults (empty for LinuxGSM games), layered with the parsed
config file, the `-c` overrides, an auto-generated RCON password, and
auto-generated non-RCON password keys. -/
def launchEnv (game : GameDefinition) (env_overrides : PyDict String)
    (lgsm_config_file : Option (PyDict String)) (gen : String) : PyDict String :=
  let env := match game.lgsm_server_code with
    | some _ => []
    | none => game.defaults
  let env := match game.lgsm_server_code, lgsm_config_file with
    | none, some f => pyUpdate env f
    | _, _ => env
  let env := pyUpdate env env_overrides
  let env := match game.rcon_password_key, game.lgsm_server_code with
    | some k, none => if pyMem env k then env else pyInsert env k gen
    | _, _ => env
  game.password_keys.foldl
    (fun e key => if pyMem env_overrides key then e else pyInsert e key gen) env

/-- The merged runtime configuration a launch ends up with: the
`final_lgsm_config` of lines 526–543 for catalog-family (LinuxGSM)
games, the container environment of lines 338–360 otherwise. -/
def mergedConfig (game : GameDefinition) (env_overrides lgsm_config_overrides : PyDict String)
    (lgsm_config_file : Option (PyDict String)) (gen : String) : PyDict String :=
  match game.lgsm_server_code with
  | none => launchEnv game env_overrides lgsm_config_file gen
  | some _ =>
    let cfg := match lgsm_config_file with
      | some f => f
      | none => pyUpdate game.defaults lgsm_config_overrides
    match game.rcon_password_key with
    | none => cfg
    | some k =>
      match lgsm_config_file with
      | some _ => if pyMem cfg k then cfg else pyInsert cfg k gen
      | none => if pyMem lgsm_config_overrides k then cfg else pyInsert cfg k gen

/-- The `provided` dict of the required-config validation (provisioner.py
lines 364–377). -/
def launchProvided (game : GameDefinition) (env_overrides lgsm_config_overrides : PyDict String)
    (lgsm_config_file : Option (PyDict String)) : PyDict String :=
  match game.lgsm_server_code with
  | some _ =>
    match lgsm_config_file with
    | some f => f
    | none => pyUpdate game.defaults lgsm_config_overrides
  | none =>
    let provided := game.defaults
    let provided := match lgsm_config_file with
      | some f => pyUpdate provided f
      | none => provided
    pyUpdate provided env_overrides

/-- `missing = [k for k in game.required_config if k not in provided]`
(provisioner.py line 378). -/
def launchMissing (game : GameDefinition) (env_overrides lgsm_config_overrides : PyDict String)
    (lgsm_config_file : Option (PyDict String)) : List String :=
  game.required_config.filter
    (fun k => !(pyMem (launchProvided game env_overrides lgsm_config_overrides lgsm_config_file) k))

/-- Effects of the launch prelude in execution order; only the last four
mutate cloud state. -/
inductive LaunchEffect where
  | localReconcile
  | cloudNameCheckRead
  | cloudResolveNetworkRead
  | cloudEnsureKeyPair
  | cloudResolveImage
  | cloudCreateSecurityGroup
  | cloudRunInstances
deriving Repr, DecidableEq

def LaunchEffect.isCloudMutation : LaunchEffect → Bool
  | .localReconcile => false
  | .cloudNameCheckRead => false
  | .cloudResolveNetworkRead => false
  | _ => true

inductive LaunchErr where
  | duplicateName
  | snapshotArgConflict
  | missingConfig (missing : List String)
deriving Repr, DecidableEq

/-- The launch prelude (provisioner.py lines 308–441), as the ordered
checks of lines 317–387 followed by the first cloud calls: best-effort
reconcile; local then cloud duplicate-name checks (reads); the
snapshot-argument conflict check; the required-config validation; then —
only when everything passed — network resolution, key-pair import, image
resolution, security group creation and `run_instances`. -/
def launchPrelude (game : GameDefinition) (from_snapshot local_dup cloud_dup has_uploads : Bool)
    (env_overrides lgsm_config_overrides : PyDict String)
    (lgsm_config_file : Option (PyDict String)) :
    List LaunchEffect × Option LaunchErr :=
  if local_dup = true then ([.localReconcile], some .duplicateName)
  else if cloud_dup = true then ([.localReconcile, .cloudNameCheckRead], some .duplicateName)
  else if from_snapshot = true ∧ (env_overrides ≠ [] ∨ has_uploads = true ∨
      lgsm_config_overrides ≠ [] ∨ lgsm_config_file.isSome = true) then
    ([.localReconcile, .cloudNameCheckRead], some .snapshotArgConflict)
  else if game.required_config ≠ [] ∧ from_snapshot = false ∧
      launchMissing game env_overrides lgsm_config_overrides lgsm_config_file ≠ [] then
    ([.localReconcile, .cloudNameCheckRead],
      some (.missingConfig (launchMissing game env_overrides lgsm_config_overrides lgsm_config_file)))
  else
    ([.localReconcile, .cloudNameCheckRead, .cloudResolveNetworkRead, .cloudEnsureKeyPair,
      .cloudResolveImage, .cloudCreateSecurityGroup, .cloudRunInstances], none)

theorem find?_isSome_map_keys {β : Type} {d : PyDict β} {k k' : String} {v : β}
    (h : (d.find? (fun kv => kv.1 = k)).isSome = true) :
    ((d.map (fun kv => if kv.1 = k' then (k', v) else kv)).find?
      (fun kv => kv.1 = k)).isSome = true := by
  induction d with
  | nil => simp [List.find?] at h
  | cons a t ih =>
    by_cases ha : a.1 = k
    · rw [List.map_cons]
      have hkey : (if a.1 = k' then (k', v) else a).1 = k := by
        by_cases h' : a.1 = k'
        · rw [if_pos h']
          rw [← h']
          exact ha
        · rw [if_neg h']
          exact ha
      rw [List.find?_cons_of_pos _ (by simp [hkey])]
      rfl
    · rw [List.map_cons]
      have hkey : ¬ (if a.1 = k' then (k', v) else a).1 = k := by
        by_cases h' : a.1 = k'
        · rw [if_pos h']
          intro hh
          exact ha (h'.trans hh)
        · rw [if_neg h']
          exact ha
      rw [List.find?_cons_of_neg _ (by simp [hkey])]
      rw [List.find?_cons_of_neg _ (by simp [ha])] at h
      exact ih h

theorem pyMem_pyInsert_of_mem {β : Type} {d : PyDict β} {k : String} (k' : String) (v : β)
    (h : pyMem d k = true) : pyMem (pyInsert d k' v) k = true := by
  unfold pyMem at h ⊢
  unfold pyInsert
  by_cases hmem : (d.find? (fun kv => kv.1 = k')).isSome = true
  · rw [if_pos hmem]
    exact find?_isSome_map_keys h
  · rw [if_neg hmem, List.find?_append]
    cases hf : d.find? (fun kv => kv.1 = k)
    · rw [hf] at h; simp at h
    · simp [Option.or]

theorem pyMem_pyUpdate_of_mem {β : Type} {d : PyDict β} {k : String} (other : PyDict β)
    (h : pyMem d k = true) : pyMem (pyUpdate d other) k = true := by
  unfold pyUpdate
  induction other generalizing d with
  | nil => exact h
  | cons kv t ih => exact ih (pyMem_pyInsert_of_mem _ _ h)

theorem pyMem_passwordFold_of_mem {e : PyDict String} {k : String} (keys : List String)
    (env_overrides : PyDict String) (gen : String) (h : pyMem e k = true) :
    pyMem (keys.foldl
      (fun e key => if pyMem env_overrides key then e else pyInsert e key gen) e) k = true := by
  induction keys generalizing e with
  | nil => exact h
  | cons key t ih =>
    simp only [List.foldl_cons]
    by_cases hk : pyMem env_overrides key = true
    · rw [if_pos hk]
      exact ih h
    · rw [if_neg hk]
      exact ih (pyMem_pyInsert_of_mem _ _ h)

/-- Every key of the validation's `provided` dict is present in the merged
configuration (the latter only adds generated values on top). -/
theorem provided_subset_merged (game : GameDefinition)
    (env_overrides lgsm_config_overrides : PyDict String)
    (lgsm_config_file : Option (PyDict String)) (gen k : String)
    (h : pyMem (launchProvided game env_overrides lgsm_config_overrides lgsm_config_file) k
      = true) :
    pyMem (mergedConfig game env_overrides lgsm_config_overrides lgsm_config_file gen) k
      = true := by
  unfold launchProvided at h
  unfold mergedConfig launchEnv
  cases hl : game.lgsm_server_code with
  | none =>
    cases hf : lgsm_config_file with
    | none =>
      simp only [hl, hf] at h ⊢
      apply pyMem_passwordFold_of_mem
      cases hr : game.rcon_password_key with
      | none => simp only [hr]; exact h
      | some kr =>
        simp only [hr]
        by_cases hm : pyMem (pyUpdate game.defaults env_overrides) kr = true
        · rw [if_pos hm]; exact h
        · rw [if_neg hm]; exact pyMem_pyInsert_of_mem _ _ h
    | some f =>
      simp only [hl, hf] at h ⊢
      apply pyMem_passwordFold_of_mem
      cases hr : game.rcon_password_key with
      | none => simp only [hr]; exact h
      | some kr =>
        simp only [hr]
        by_cases hm : pyMem (pyUpdate (pyUpdate game.defaults f) env_overrides) kr = true
        · rw [if_pos hm]; exact h
        · rw [if_neg hm]; exact pyMem_pyInsert_of_mem _ _ h
  | some code =>
    cases hf : lgsm_config_file with
    | none =>
      simp only [hl, hf] at h ⊢
      cases hr : game.rcon_password_key with
      | none => simp only [hr]; exact h
      | some kr =>
        simp only [hr]
        by_cases hm : pyMem lgsm_config_overrides kr = true
        · rw [if_pos hm]; exact h
        · rw [if_neg hm]; exact pyMem_pyInsert_of_mem _ _ h
    | some f =>
      simp only [hl, hf] at h ⊢
      cases hr : game.rcon_password_key with
      | none => simp only [hr]; exact h
      | some kr =>
        simp only [hr]
        by_cases hm : pyMem f kr = true
        · rw [if_pos hm]; exact h
        · rw [if_neg hm]; exact pyMem_pyInsert_of_mem _ _ h

/-- **C6.** With a non-empty `required_config`, no snapshot restore, and
the name checks passing, every required key missing from the merged
configuration makes launch fail with the configuration error that
enumerates the missing keys, and the prelude performs no cloud mutation
before that failure. -/
theorem C6_required_config_fails_before_cloud (game : GameDefinition) (has_uploads : Bool)
    (env_overrides lgsm_config_overrides : PyDict String)
    (lgsm_config_file : Option (PyDict String)) (gen k : String)
    (hreq : game.required_config ≠ [])
    (hk : k ∈ game.required_config)
    (hmissing : pyMem (mergedConfig game env_overrides lgsm_config_overrides
      lgsm_config_file gen) k = false) :
    (launchPrelude game false false false has_uploads env_overrides lgsm_config_overrides
        lgsm_config_file).2 =
      some (.missingConfig (launchMissing game env_overrides lgsm_config_overrides
        lgsm_config_file)) ∧
    k ∈ launchMissing game env_overrides lgsm_config_overrides lgsm_config_file ∧
    ∀ e ∈ (launchPrelude game false false false has_uploads env_overrides
      lgsm_config_overrides lgsm_config_file).1, e.isCloudMutation = false := by
  have hprov : pyMem (launchProvided game env_overrides lgsm_config_overrides
      lgsm_config_file) k = false := by
    cases hp : pyMem (launchProvided game env_overrides lgsm_config_overrides
        lgsm_config_file) k
    · rfl
    · rw [provided_subset_merged game env_overrides lgsm_config_overrides lgsm_config_file
        gen k hp] at hmissing
      exact hmissing
  have hkmiss : k ∈ launchMissing game env_overrides lgsm_config_overrides lgsm_config_file := by
    unfold launchMissing
    rw [List.mem_filter]
    exact ⟨hk, by simp [hprov]⟩
  have hne : launchMissing game env_overrides lgsm_config_overrides lgsm_config_file ≠ [] :=
    List.ne_nil_of_mem hkmiss
  unfold launchPrelude
  rw [if_neg (by simp), if_neg (by simp), if_neg (by simp),
    if_pos ⟨hreq, rfl, hne⟩]
  refine ⟨rfl, hkmiss, ?_⟩
  intro e he
  simp only [List.mem_cons, List.not_mem_nil, or_false] at he
  rcases he with rfl | rfl <;> rfl

/-- A minimal game descriptor requiring one config key. -/
def eulaGame : GameDefinition :=
  { name := "g"
    defaults := []
    lgsm_server_code := none
    rcon_password_key := none
    password_keys := []
    required_config := ["EULA"] }

/-- Witness for C6: a game requiring `EULA` with nothing provided. -/
theorem C6_required_config_fails_before_cloud_witness :
    ((launchPrelude eulaGame false false false false [] [] none).2 =
      some (.missingConfig (launchMissing eulaGame [] [] none)) ∧
    "EULA" ∈ launchMissing eulaGame [] [] none ∧
    ∀ e ∈ (launchPrelude eulaGame false false false false [] [] none).1,
      e.isCloudMutation = false) :=
  C6_required_config_fails_before_cloud eulaGame false [] [] none "tok" "EULA"
    (by simp [eulaGame]) (by simp [eulaGame]) (by rfl)

/-! ## Claim C2: EIP consistency across provisioner operations

A single-server system state: the local record, the server's cloud VM
(with the `gsm:*` tags the tool writes), and the server's Elastic IP.
A multi-server store factors into independent per-server states — no
operation couples the EIP fields of different records — so the
invariant is proved per server. -/

inductive VMState where
  | pending
  | running
  | stopping
  | stopped
  | terminated
deriving Repr, DecidableEq

def VMState.toEc2String : VMState → String
  | .pending => "pending"
  | .running => "running"
  | .stopping => "stopping"
  | .stopped => "stopped"
  | .terminated => "terminated"

structure CloudVM where
  state : VMState
  instanceId : String
  region : String
  ephemeralIp : String          -- provider-assigned address while running without an EIP
  gsmId : String                -- gsm:id
  gameTag : String              -- gsm:game
  nameTag : String              -- gsm:name
  sgTag : String                -- gsm:sg-id
  portsTag : String             -- gsm:ports
  rconTag : String              -- gsm:rcon-password
  containerNameTag : String     -- gsm:container-name
  launchTimeTag : String        -- gsm:launch-time
  eipTag : String               -- gsm:eip-alloc-id ("" = absent)
  containerStoppedTag : Bool    -- gsm:container-stopped == "true"
deriving Repr, DecidableEq

structure CloudEIP where
  allocId : String
  publicIp : String
  associated : Bool
deriving Repr, DecidableEq

structure Sys where
  record : Option ServerRecord
  vm : Option CloudVM
  eip : Option CloudEIP
deriving Repr, DecidableEq

/-- `PublicIpAddress` as `describe_instances` reports it: the EIP while
one is associated (EIP associations survive instance stop), otherwise
the ephemeral address of a running instance, otherwise absent (`""`
after the source's `or ""`). -/
def observedIp (vm : CloudVM) (eip : Option CloudEIP) : String :=
  match eip with
  | some e =>
    if e.associated then e.publicIp
    else if vm.state = .running then vm.ephemeralIp else ""
  | none => if vm.state = .running then vm.ephemeralIp else ""

/-- Tag sync steps of `_refresh_record` (provisioner.py lines 273–286):
adopt the `gsm:container-name`, `gsm:sg-id`, `gsm:rcon-password` and
`gsm:ports` tags when they disagree with the record. -/
def syncContainerName (v : CloudVM) (r : ServerRecord) : ServerRecord :=
  if v.containerNameTag ≠ "" ∧ v.containerNameTag ≠ r.container_name then
    { r with container_name := v.containerNameTag } else r

def syncSg (v : CloudVM) (r : ServerRecord) : ServerRecord :=
  if v.sgTag ≠ "" ∧ v.sgTag ≠ r.security_group_id then
    { r with security_group_id := v.sgTag } else r

def syncRcon (v : CloudVM) (r : ServerRecord) : ServerRecord :=
  if v.rconTag ≠ "" ∧ v.rconTag ≠ r.rcon_password then
    { r with rcon_password := v.rconTag } else r

def syncPorts (v : CloudVM) (r : ServerRecord) : ServerRecord :=
  if v.portsTag ≠ "" ∧ _parse_ports_tag v.portsTag ≠ r.ports then
    { r with ports := _parse_ports_tag v.portsTag } else r

/-- The tag syncs of `_refresh_record` lines 273–286 in source order. -/
def tagFieldSync (v : CloudVM) (r : ServerRecord) : ServerRecord :=
  syncPorts v (syncRcon v (syncSg v (syncContainerName v r)))

/-- `Provisioner._refresh_record` (provisioner.py lines 231–292) on the
single-server state: delete the record when the VM is gone or
terminated; otherwise recompute status (lines 249–253), `public_ip`
(lines 254–258), sync the tag-backed fields (lines 259–286), and keep
the result.  In this single-controller model the `gsm:sg-id`,
`gsm:ports`, `gsm:rcon-password` and `gsm:container-name` tags are
written together with the record, so their sync branches are included
but act as identities on reachable states. -/
def refreshSys (s : Sys) : Sys :=
  match s.record with
  | none => s
  | some r =>
    match s.vm with
    | none => { s with record := none }
    | some v =>
      if v.state = .terminated then { s with record := none }
      else
        let new_status := refreshNewStatus v.state.toEc2String r.status
          (if v.containerStoppedTag then "true" else "")
        let new_ip := observedIp v s.eip
        let r := { r with status := new_status, public_ip := new_ip }
        let r :=
          if v.eipTag ≠ r.eip_allocation_id then
            if v.eipTag ≠ "" then
              { r with eip_allocation_id := v.eipTag,
                       eip_public_ip := match s.eip with
                         | some e => if e.allocId = v.eipTag then e.publicIp else r.eip_public_ip
                         | none => r.eip_public_ip }
            else { r with eip_allocation_id := "", eip_public_ip := "" }
          else r
        { s with record := some (tagFieldSync v r) }

/-- Adoption of a cloud VM with no local record
(`Provisioner.reconcile`, lines 1107–1139). -/
def adoptOrphan (now : String) (v : CloudVM) (eip : Option CloudEIP) : ServerRecord :=
  let status := (pyLookup EC2_STATE_MAP v.state.toEc2String).getD "running"
  let status := if status = "running" ∧ v.containerStoppedTag then "stopped" else status
  let eip_ip := if v.eipTag ≠ "" then
      (match eip with
       | some e => if e.allocId = v.eipTag then e.publicIp else ""
       | none => "")
    else ""
  { id := v.gsmId
    game := v.gameTag
    name := v.nameTag
    instance_id := v.instanceId
    region := v.region
    public_ip := observedIp v eip
    ports := _parse_ports_tag v.portsTag
    status := status
    security_group_id := v.sgTag
    launch_time := if v.launchTimeTag ≠ "" then v.launchTimeTag else now
    container_name := if v.containerNameTag ≠ "" then v.containerNameTag
      else "gsm-" ++ v.gameTag ++ "-" ++ pyStrTake v.gsmId 8
    rcon_password := v.rconTag
    config := []
    eip_allocation_id := v.eipTag
    eip_public_ip := eip_ip }

/-- Sync steps specific to `Provisioner.reconcile` (lines 1083–1102):
ports uses the parsed tag's non-emptiness, the EIP lookup resolves a
missing allocation to `""`, and `launch_time` is also synced. -/
def syncPortsReconcile (v : CloudVM) (r : ServerRecord) : ServerRecord :=
  if _parse_ports_tag v.portsTag ≠ [] ∧ _parse_ports_tag v.portsTag ≠ r.ports then
    { r with ports := _parse_ports_tag v.portsTag } else r

def syncLaunchTime (v : CloudVM) (r : ServerRecord) : ServerRecord :=
  if v.launchTimeTag ≠ "" ∧ v.launchTimeTag ≠ r.launch_time then
    { r with launch_time := v.launchTimeTag } else r

def eipSyncReconcile (v : CloudVM) (eip : Option CloudEIP) (r : ServerRecord) : ServerRecord :=
  if v.eipTag ≠ r.eip_allocation_id then
    { r with eip_allocation_id := v.eipTag,
             eip_public_ip := if v.eipTag ≠ "" then
                 (match eip with
                  | some e => if e.allocId = v.eipTag then e.publicIp else ""
                  | none => "")
               else "" }
  else r

/-- Per-record sync of `Provisioner.reconcile` (lines 1069–1102), the
steps in source order. -/
def reconcileRecordSync (r : ServerRecord) (v : CloudVM) (eip : Option CloudEIP) :
    ServerRecord :=
  syncLaunchTime v (syncContainerName v (eipSyncReconcile v eip
    (syncRcon v (syncPortsReconcile v (syncSg v
      { r with status := reconcileNewStatus v.state.toEc2String r.status (if v.containerStoppedTag then "true" else ""), public_ip := observedIp v eip })))))

/-- `Provisioner.reconcile` (lines 1038–1193) on the single-server
state: per-record sync or deletion against the cloud index (which skips
terminated and shutting-down VMs), orphan adoption, and the final
stale-EIP cleanup of lines 1178–1185. -/
def reconcileSys (now : String) (s : Sys) : Sys :=
  let inst := match s.vm with
    | some v => if v.state = .terminated then none else some v
    | none => none
  let s1 := match s.record, inst with
    | some r, some v => { s with record := some (reconcileRecordSync r v s.eip) }
    | some _, none => { s with record := none }
    | none, some v => { s with record := some (adoptOrphan now v s.eip) }
    | none, none => s
  match s1.record with
  | some r =>
    if r.eip_allocation_id ≠ "" ∧
        (match s1.eip with
         | some e => !(decide (e.allocId = r.eip_allocation_id))
         | none => true) = true then
      let r := { r with eip_allocation_id := "", eip_public_ip := "" }
      let r := match inst with
        | some v => { r with public_ip := observedIp v s1.eip }
        | none => r
      { s1 with record := some r }
    else s1
  | none => s1



/-! ### Provisioner operations on the system state

Each operation returns `some` of the post-state when it completes
without raising, `none` otherwise.  Parameters stand for values the
environment supplies (fresh ids, provider-assigned addresses, generated
names) and for the outcome of each best-effort call whose failure the
source swallows with an `except Exception: pass`: the `gsm:eip-alloc-id`
tag write of launch (provisioner.py lines 647-650) and of `pin_ip`
(lines 919-922), its deletion in `unpin_ip` (lines 939-942), the
`gsm:container-stopped` tag write of `stop_container` (lines 888-891)
and its deletion in `resume` (lines 836-839 and 863-866), and the EIP
release of `destroy` (lines 672-679).  The other best-effort tag writes
(`gsm:container-name`, `gsm:rcon-password`) need no parameter: the tag
fields of `CloudVM` are unconstrained and the sync lemmas below show the
corresponding refresh branches never touch the claim-relevant fields.
`Sys.eip` holds the one address currently relevant to this server; an
allocation no longer referenced by the record, the instance tag or a
current association drops out of the model when a fresh allocation
replaces it, since no later observation consults it. -/

def opLaunchGo (server_id game_name srv_name instance_id region sg_id ephem
    launch_time container_name rcon ports_tag : String) (ports : PyDict Int)
    (pin : Bool) (alloc_id eip_ip : String) (eip_tag_ok : Bool) : Sys :=
  { record := some
      { id := server_id, game := game_name, name := srv_name
        instance_id := instance_id, region := region
        public_ip := if pin then eip_ip else ephem
        ports := ports, status := "running", security_group_id := sg_id
        launch_time := launch_time, container_name := container_name
        rcon_password := rcon, config := []
        eip_allocation_id := if pin then alloc_id else ""
        eip_public_ip := if pin then eip_ip else "" }
    vm := some
      { state := .running, instanceId := instance_id, region := region
        ephemeralIp := ephem, gsmId := server_id, gameTag := game_name
        nameTag := srv_name, sgTag := sg_id, portsTag := ports_tag
        rconTag := rcon, containerNameTag := container_name
        launchTimeTag := launch_time
        eipTag := if pin && eip_tag_ok then alloc_id else ""
        containerStoppedTag := false }
    eip := if pin then some { allocId := alloc_id, publicIp := eip_ip,
                              associated := true } else none }

/-- A successful `Provisioner.launch` (provisioner.py lines 294-660):
preconditions pass, the instance is created tagged with the record's
fields (lines 432-441), the record ends `status="running"` with the
instance's address (lines 607-617), and with `pin_ip` an EIP is
allocated, associated, persisted and — best-effort, `eip_tag_ok` —
tagged (lines 635-652). -/
def opLaunch (s : Sys) (server_id game_name srv_name instance_id region sg_id ephem
    launch_time container_name rcon ports_tag : String) (ports : PyDict Int)
    (pin : Bool) (alloc_id eip_ip : String) (eip_tag_ok : Bool) : Option Sys :=
  match s.record with
  | some _ => none       -- name-uniqueness (single-server world: any record is "this" name)
  | none =>
    match s.vm with
    | some v =>
      if v.state = .terminated then
        some (opLaunchGo server_id game_name srv_name instance_id region sg_id ephem
          launch_time container_name rcon ports_tag ports pin alloc_id eip_ip eip_tag_ok)
      else none
    | none =>
      some (opLaunchGo server_id game_name srv_name instance_id region sg_id ephem
        launch_time container_name rcon ports_tag ports pin alloc_id eip_ip eip_tag_ok)

/-- A successful `Provisioner.destroy` (lines 662-694): refresh; if the
refresh already cleaned up, return; else best-effort release of the
recorded EIP (`release_ok`; lines 672-679, a failed release leaks the
address), terminate the instance, delete the record. -/
def opDestroy (s : Sys) (release_ok : Bool) : Option Sys :=
  match s.record with
  | none => none
  | some _ =>
    let s := refreshSys s
    match s.record with
    | none => some s
    | some r =>
      let eip' :=
        if release_ok then
          match s.eip with
          | some e => if e.allocId = r.eip_allocation_id then none else s.eip
          | none => none
        else s.eip
      some { record := none
             vm := s.vm.map (fun v => { v with state := .terminated })
             eip := eip' }

/-- A successful `Provisioner.pause` (lines 746-790): refresh, reject
`paused`, best-effort container stop, `stop_instance` succeeds, persist
`paused`; the stopped-waiter leaves the VM `stopping` or `stopped`. -/
def opPause (s : Sys) (finalVmState : VMState) : Option Sys :=
  match s.record with
  | none => none
  | some _ =>
    let s := refreshSys s
    match s.record with
    | none => none
    | some r =>
      if r.status = "paused" then none
      else if finalVmState = .stopping ∨ finalVmState = .stopped then
        match s.vm with
        | none => none
        | some v =>
          some { s with vm := some { v with state := finalVmState }, record := some { r with status := "paused" } }
      else none

/-- A successful `Provisioner.resume` (lines 792-870): refresh, require
`paused` or `stopped`.  `stopped` only restarts the container
(`_resume_container`).  `paused` starts the instance, re-associates a
pinned EIP (using `eip_public_ip` as the new address) or fetches the
fresh ephemeral address, persists the IP and `status="running"`, starts
the container.  Both paths end with a best-effort deletion of the
`gsm:container-stopped` tag (`tag_ok`; lines 836-839 and 863-866). -/
def opResume (s : Sys) (newEphem : String) (tag_ok : Bool) : Option Sys :=
  match s.record with
  | none => none
  | some _ =>
    let s := refreshSys s
    match s.record with
    | none => none
    | some r =>
      if r.status = "stopped" then
        match s.vm with
        | none => none
        | some v =>
          some { s with record := some { r with status := "running" }, vm := some { v with containerStoppedTag := if tag_ok then false else v.containerStoppedTag } }
      else if r.status = "paused" then
        match s.vm with
        | none => none
        | some v =>
          let v := { v with state := VMState.running, ephemeralIp := newEphem }
          if r.eip_allocation_id ≠ "" then
            match s.eip with
            | some e =>
              if e.allocId = r.eip_allocation_id then
                some { record := some { r with public_ip := r.eip_public_ip, status := "running" }
                       vm := some { v with containerStoppedTag := if tag_ok then false else v.containerStoppedTag }
                       eip := some { e with associated := true } }
              else none
            | none => none
          else
            some { record := some { r with public_ip := observedIp v s.eip, status := "running" }
                   vm := some { v with containerStoppedTag := if tag_ok then false else v.containerStoppedTag }
                   eip := s.eip }
      else none

/-- A successful `Provisioner.stop_container` (lines 872-894): refresh,
require `running`, stop the container, persist `stopped`, best-effort
write of the `gsm:container-stopped` tag (`tag_ok`; lines 888-891). -/
def opStopContainer (s : Sys) (tag_ok : Bool) : Option Sys :=
  match s.record with
  | none => none
  | some _ =>
    let s := refreshSys s
    match s.record with
    | none => none
    | some r =>
      if r.status = "running" then
        match s.vm with
        | none => none
        | some v =>
          some { s with record := some { r with status := "stopped" }, vm := some { v with containerStoppedTag := if tag_ok then true else v.containerStoppedTag } }
      else none

/-- A successful `Provisioner.pin_ip` (lines 896-923) at the system
level: reject a pinned record, allocate the address (replacing any
stale previous allocation in the single-address slot), associate it
(updating `public_ip`) only for status `running`/`stopped`, persist
both EIP fields, best-effort write of the `gsm:eip-alloc-id` tag
(`tag_ok`; lines 919-922). -/
def opPinIp (s : Sys) (alloc_id eip_ip : String) (tag_ok : Bool) : Option Sys :=
  match s.record with
  | none => none
  | some r =>
    if r.eip_allocation_id ≠ "" then none
    else
      match s.vm with
      | none => none
      | some v =>
        let v := { v with eipTag := if tag_ok then alloc_id else v.eipTag }
        if r.status = "running" ∨ r.status = "stopped" then
          some { record := some { r with public_ip := eip_ip, eip_allocation_id := alloc_id, eip_public_ip := eip_ip }
                 vm := some v
                 eip := some { allocId := alloc_id, publicIp := eip_ip, associated := true } }
        else
          some { record := some { r with eip_allocation_id := alloc_id, eip_public_ip := eip_ip }
                 vm := some v
                 eip := some { allocId := alloc_id, publicIp := eip_ip, associated := false } }

/-- A successful `Provisioner.unpin_ip` (lines 925-949): disassociate
and release the address, clear the EIP fields, best-effort deletion of
the `gsm:eip-alloc-id` tag (`tag_delete_ok`; lines 939-942 — on failure
the stale tag stays on the instance), and for a `running`/`stopped`
server refetch the new ephemeral address. -/
def opUnpinIp (s : Sys) (newEphem : String) (tag_delete_ok : Bool) : Option Sys :=
  match s.record with
  | none => none
  | some r =>
    if r.eip_allocation_id = "" then none
    else
      match s.eip with
      | none => none
      | some e =>
        if e.allocId = r.eip_allocation_id then
          match s.vm with
          | none => none
          | some v =>
            let v := { v with eipTag := if tag_delete_ok then "" else v.eipTag }
            let r := { r with eip_allocation_id := "", eip_public_ip := "" }
            if r.status = "running" ∨ r.status = "stopped" then
              let v := { v with ephemeralIp := newEphem }
              some { record := some { r with public_ip := observedIp v none }
                     vm := some v, eip := none }
            else
              some { record := some r, vm := some v, eip := none }
        else none

/-- `Provisioner.reconcile` always completes in the model. -/
def opReconcile (s : Sys) (now : String) : Option Sys :=
  some (reconcileSys now s)


/-! ### The EIP-consistency invariant and its strengthening -/

def statusOk (r : ServerRecord) : Prop :=
  r.status = "running" ∨ r.status = "stopped" ∨ r.status = "paused"

/-- The strengthened inductive invariant: the record's status is one of
the three steady states; the VM exists, its lifecycle state matches the
status, and its `gsm:eip-alloc-id` tag is the record's allocation id or
empty (empty also covers a failed best-effort tag write); and a pinned
record's EIP exists, carries the recorded address, and — outside
`paused` — is associated with `public_ip` equal to it.  Without a
record only a terminated (or no) VM remains; nothing is assumed of the
EIP slot there or on unpinned records, covering leaked allocations. -/
def SysInv (s : Sys) : Prop :=
  match s.record with
  | none => s.vm = none ∨ ∃ v, s.vm = some v ∧ v.state = .terminated
  | some r =>
      statusOk r ∧
      (∃ v, s.vm = some v ∧
        (v.eipTag = r.eip_allocation_id ∨ v.eipTag = "") ∧
        (r.status = "paused" → v.state = .stopping ∨ v.state = .stopped) ∧
        (r.status ≠ "paused" → v.state = .running)) ∧
      (r.eip_allocation_id ≠ "" →
        ∃ e, s.eip = some e ∧ e.allocId = r.eip_allocation_id ∧
          e.publicIp = r.eip_public_ip ∧
          (r.status ≠ "paused" → e.associated = true ∧ r.public_ip = r.eip_public_ip))

theorem syncContainerName_fields (v : CloudVM) (r : ServerRecord) :
    (syncContainerName v r).status = r.status ∧
    (syncContainerName v r).public_ip = r.public_ip ∧
    (syncContainerName v r).eip_allocation_id = r.eip_allocation_id ∧
    (syncContainerName v r).eip_public_ip = r.eip_public_ip := by
  unfold syncContainerName
  split_ifs <;> exact ⟨rfl, rfl, rfl, rfl⟩

theorem syncSg_fields (v : CloudVM) (r : ServerRecord) :
    (syncSg v r).status = r.status ∧
    (syncSg v r).public_ip = r.public_ip ∧
    (syncSg v r).eip_allocation_id = r.eip_allocation_id ∧
    (syncSg v r).eip_public_ip = r.eip_public_ip := by
  unfold syncSg
  split_ifs <;> exact ⟨rfl, rfl, rfl, rfl⟩

theorem syncRcon_fields (v : CloudVM) (r : ServerRecord) :
    (syncRcon v r).status = r.status ∧
    (syncRcon v r).public_ip = r.public_ip ∧
    (syncRcon v r).eip_allocation_id = r.eip_allocation_id ∧
    (syncRcon v r).eip_public_ip = r.eip_public_ip := by
  unfold syncRcon
  split_ifs <;> exact ⟨rfl, rfl, rfl, rfl⟩

theorem syncPorts_fields (v : CloudVM) (r : ServerRecord) :
    (syncPorts v r).status = r.status ∧
    (syncPorts v r).public_ip = r.public_ip ∧
    (syncPorts v r).eip_allocation_id = r.eip_allocation_id ∧
    (syncPorts v r).eip_public_ip = r.eip_public_ip := by
  unfold syncPorts
  split_ifs <;> exact ⟨rfl, rfl, rfl, rfl⟩

theorem tagFieldSync_fields (v : CloudVM) (r : ServerRecord) :
    (tagFieldSync v r).status = r.status ∧
    (tagFieldSync v r).public_ip = r.public_ip ∧
    (tagFieldSync v r).eip_allocation_id = r.eip_allocation_id ∧
    (tagFieldSync v r).eip_public_ip = r.eip_public_ip := by
  unfold tagFieldSync
  obtain ⟨h1, h2, h3, h4⟩ := syncContainerName_fields v r
  obtain ⟨g1, g2, g3, g4⟩ := syncSg_fields v (syncContainerName v r)
  obtain ⟨f1, f2, f3, f4⟩ := syncRcon_fields v (syncSg v (syncContainerName v r))
  obtain ⟨e1, e2, e3, e4⟩ := syncPorts_fields v (syncRcon v (syncSg v (syncContainerName v r)))
  exact ⟨by rw [e1, f1, g1, h1], by rw [e2, f2, g2, h2],
         by rw [e3, f3, g3, h3], by rw [e4, f4, g4, h4]⟩

/-- Under the invariant the VM of a live record is never terminated. -/
theorem vmState_ne_terminated_of_inv {r : ServerRecord} {v : CloudVM}
    (hpaused : r.status = "paused" → v.state = .stopping ∨ v.state = .stopped)
    (hrun : r.status ≠ "paused" → v.state = .running) :
    ¬ v.state = VMState.terminated := by
  by_cases hp : r.status = "paused"
  · rcases hpaused hp with h | h <;> rw [h] <;> simp
  · rw [hrun hp]; simp

/-- Under the invariant the recomputed status is the stored one, except
that a `running` record flips to `stopped` when the (possibly stale)
`gsm:container-stopped` tag says so. -/
theorem refreshNewStatus_of_inv {r : ServerRecord} {v : CloudVM}
    (hstatusOk : statusOk r)
    (hpaused : r.status = "paused" → v.state = .stopping ∨ v.state = .stopped)
    (hrun : r.status ≠ "paused" → v.state = .running) :
    refreshNewStatus v.state.toEc2String r.status
        (if v.containerStoppedTag then "true" else "") = r.status ∨
    (r.status = "running" ∧
      refreshNewStatus v.state.toEc2String r.status
        (if v.containerStoppedTag then "true" else "") = "stopped") := by
  rcases hstatusOk with hs | hs | hs
  · have hst : v.state = .running := hrun (by rw [hs]; decide)
    rw [hs, hst]
    cases v.containerStoppedTag
    · exact Or.inl rfl
    · exact Or.inr ⟨rfl, rfl⟩
  · have hst : v.state = .running := hrun (by rw [hs]; decide)
    rw [hs, hst]
    cases v.containerStoppedTag <;> exact Or.inl rfl
  · rcases hpaused hs with hst | hst <;> rw [hs, hst] <;>
      cases v.containerStoppedTag <;> exact Or.inl rfl

/-- Refresh of an invariant state keeps the record: status and
`public_ip` are recomputed, the EIP fields are kept when the
`gsm:eip-alloc-id` tag agrees with the record and cleared when the tag
is empty on a pinned record (a lost best-effort tag write), and the
invariant is preserved. -/
theorem refreshSys_inv {s : Sys} (hinv : SysInv s) {r : ServerRecord}
    (hrec : s.record = some r) :
    ∃ r' v, refreshSys s = { s with record := some r' } ∧ s.vm = some v ∧
      SysInv (refreshSys s) := by
  have hinv0 := hinv
  unfold SysInv at hinv0
  rw [hrec] at hinv0
  obtain ⟨hstOk, ⟨v, hvm, htag, hpaused, hrun⟩, heip⟩ := hinv0
  have hterm := vmState_ne_terminated_of_inv hpaused hrun
  have hstatus := refreshNewStatus_of_inv hstOk hpaused hrun
  have hsp : ¬("stopped" : String) = "paused" := by decide
  rcases hstatus with hs1 | ⟨hrn, hs1⟩
  · by_cases hsync : v.eipTag = r.eip_allocation_id
    · have href : refreshSys s = { s with record := some (tagFieldSync v { r with status := r.status, public_ip := observedIp v s.eip }) } := by
        unfold refreshSys
        simp only [hrec, hvm]
        rw [if_neg hterm, hs1, if_neg (by simp [hsync])]
      obtain ⟨f1, f2, f3, f4⟩ := tagFieldSync_fields v
        { r with status := r.status, public_ip := observedIp v s.eip }
      refine ⟨_, v, href, hvm, ?_⟩
      rw [href]
      unfold SysInv
      simp only
      refine ⟨?_, ⟨v, hvm, ?_, ?_, ?_⟩, ?_⟩
      · unfold statusOk
        rw [f1]
        exact hstOk
      · rw [f3]
        exact htag
      · rw [f1]
        exact hpaused
      · rw [f1]
        exact hrun
      · rw [f1, f3, f4]
        intro ha
        obtain ⟨e, he, he1, he2, he3⟩ := heip ha
        refine ⟨e, he, he1, he2, ?_⟩
        intro hnp
        obtain ⟨hassoc, _⟩ := he3 hnp
        refine ⟨hassoc, ?_⟩
        rw [f2]
        show observedIp v s.eip = r.eip_public_ip
        unfold observedIp
        simp only [he]
        rw [if_pos hassoc]
        exact he2
    · have ht0 : v.eipTag = "" := by
        rcases htag with h | h
        · exact absurd h hsync
        · exact h
      have href : refreshSys s = { s with record := some (tagFieldSync v { { r with status := r.status, public_ip := observedIp v s.eip } with eip_allocation_id := "", eip_public_ip := "" }) } := by
        unfold refreshSys
        simp only [hrec, hvm]
        rw [if_neg hterm, hs1, if_pos hsync, if_neg (show ¬ v.eipTag ≠ "" from fun hc => hc ht0)]
      obtain ⟨f1, f2, f3, f4⟩ := tagFieldSync_fields v
        { { r with status := r.status, public_ip := observedIp v s.eip } with eip_allocation_id := "", eip_public_ip := "" }
      refine ⟨_, v, href, hvm, ?_⟩
      rw [href]
      unfold SysInv
      simp only
      refine ⟨?_, ⟨v, hvm, ?_, ?_, ?_⟩, ?_⟩
      · unfold statusOk
        rw [f1]
        exact hstOk
      · rw [f3]
        exact Or.inr ht0
      · rw [f1]
        exact hpaused
      · rw [f1]
        exact hrun
      · rw [f3]
        intro ha
        exact absurd rfl ha
  · by_cases hsync : v.eipTag = r.eip_allocation_id
    · have href : refreshSys s = { s with record := some (tagFieldSync v { r with status := "stopped", public_ip := observedIp v s.eip }) } := by
        unfold refreshSys
        simp only [hrec, hvm]
        rw [if_neg hterm, hs1, if_neg (by simp [hsync])]
      obtain ⟨f1, f2, f3, f4⟩ := tagFieldSync_fields v
        { r with status := "stopped", public_ip := observedIp v s.eip }
      refine ⟨_, v, href, hvm, ?_⟩
      rw [href]
      unfold SysInv
      simp only
      refine ⟨?_, ⟨v, hvm, ?_, ?_, ?_⟩, ?_⟩
      · unfold statusOk
        rw [f1]
        exact Or.inr (Or.inl rfl)
      · rw [f3]
        exact htag
      · rw [f1]
        exact fun hq => absurd hq hsp
      · rw [f1]
        exact fun _ => hrun (by rw [hrn]; decide)
      · rw [f1, f3, f4]
        intro ha
        obtain ⟨e, he, he1, he2, he3⟩ := heip ha
        refine ⟨e, he, he1, he2, ?_⟩
        intro _
        obtain ⟨hassoc, _⟩ := he3 (by rw [hrn]; decide)
        refine ⟨hassoc, ?_⟩
        rw [f2]
        show observedIp v s.eip = r.eip_public_ip
        unfold observedIp
        simp only [he]
        rw [if_pos hassoc]
        exact he2
    · have ht0 : v.eipTag = "" := by
        rcases htag with h | h
        · exact absurd h hsync
        · exact h
      have href : refreshSys s = { s with record := some (tagFieldSync v { { r with status := "stopped", public_ip := observedIp v s.eip } with eip_allocation_id := "", eip_public_ip := "" }) } := by
        unfold refreshSys
        simp only [hrec, hvm]
        rw [if_neg hterm, hs1, if_pos hsync, if_neg (show ¬ v.eipTag ≠ "" from fun hc => hc ht0)]
      obtain ⟨f1, f2, f3, f4⟩ := tagFieldSync_fields v
        { { r with status := "stopped", public_ip := observedIp v s.eip } with eip_allocation_id := "", eip_public_ip := "" }
      refine ⟨_, v, href, hvm, ?_⟩
      rw [href]
      unfold SysInv
      simp only
      refine ⟨?_, ⟨v, hvm, ?_, ?_, ?_⟩, ?_⟩
      · unfold statusOk
        rw [f1]
        exact Or.inr (Or.inl rfl)
      · rw [f3]
        exact Or.inr ht0
      · rw [f1]
        exact fun hq => absurd hq hsp
      · rw [f1]
        exact fun _ => hrun (by rw [hrn]; decide)
      · rw [f3]
        intro ha
        exact absurd rfl ha

theorem syncPortsReconcile_fields (v : CloudVM) (r : ServerRecord) :
    (syncPortsReconcile v r).status = r.status ∧
    (syncPortsReconcile v r).public_ip = r.public_ip ∧
    (syncPortsReconcile v r).eip_allocation_id = r.eip_allocation_id ∧
    (syncPortsReconcile v r).eip_public_ip = r.eip_public_ip := by
  unfold syncPortsReconcile
  split_ifs <;> exact ⟨rfl, rfl, rfl, rfl⟩

theorem syncLaunchTime_fields (v : CloudVM) (r : ServerRecord) :
    (syncLaunchTime v r).status = r.status ∧
    (syncLaunchTime v r).public_ip = r.public_ip ∧
    (syncLaunchTime v r).eip_allocation_id = r.eip_allocation_id ∧
    (syncLaunchTime v r).eip_public_ip = r.eip_public_ip := by
  unfold syncLaunchTime
  split_ifs <;> exact ⟨rfl, rfl, rfl, rfl⟩

/-- When the `gsm:eip-alloc-id` tag agrees with the record, the EIP sync
branch of `reconcile` is skipped. -/
theorem eipSyncReconcile_of_eq (v : CloudVM) (eip : Option CloudEIP) {r : ServerRecord}
    (h : v.eipTag = r.eip_allocation_id) :
    eipSyncReconcile v eip r = r := by
  unfold eipSyncReconcile
  rw [if_neg (by simp [h])]

/-- The reconcile sync chain preserves the claim-relevant fields when
the EIP tag agrees with the record it starts from. -/
theorem reconcileSyncChain_fields (v : CloudVM) (eip : Option CloudEIP) (r0 : ServerRecord)
    (htag : v.eipTag = r0.eip_allocation_id) :
    (syncLaunchTime v (syncContainerName v (eipSyncReconcile v eip
        (syncRcon v (syncPortsReconcile v (syncSg v r0)))))).status = r0.status ∧
    (syncLaunchTime v (syncContainerName v (eipSyncReconcile v eip
        (syncRcon v (syncPortsReconcile v (syncSg v r0)))))).public_ip = r0.public_ip ∧
    (syncLaunchTime v (syncContainerName v (eipSyncReconcile v eip
        (syncRcon v (syncPortsReconcile v (syncSg v r0)))))).eip_allocation_id
      = r0.eip_allocation_id ∧
    (syncLaunchTime v (syncContainerName v (eipSyncReconcile v eip
        (syncRcon v (syncPortsReconcile v (syncSg v r0)))))).eip_public_ip
      = r0.eip_public_ip := by
  obtain ⟨a1, a2, a3, a4⟩ := syncSg_fields v r0
  obtain ⟨b1, b2, b3, b4⟩ := syncPortsReconcile_fields v (syncSg v r0)
  obtain ⟨c1, c2, c3, c4⟩ := syncRcon_fields v (syncPortsReconcile v (syncSg v r0))
  have heq : eipSyncReconcile v eip (syncRcon v (syncPortsReconcile v (syncSg v r0))) =
      syncRcon v (syncPortsReconcile v (syncSg v r0)) :=
    eipSyncReconcile_of_eq v eip (by rw [c3, b3, a3]; exact htag)
  rw [heq]
  obtain ⟨d1, d2, d3, d4⟩ :=
    syncContainerName_fields v (syncRcon v (syncPortsReconcile v (syncSg v r0)))
  obtain ⟨e1, e2, e3, e4⟩ :=
    syncLaunchTime_fields v (syncContainerName v (syncRcon v (syncPortsReconcile v (syncSg v r0))))
  exact ⟨by rw [e1, d1, c1, b1, a1], by rw [e2, d2, c2, b2, a2],
         by rw [e3, d3, c3, b3, a3], by rw [e4, d4, c4, b4, a4]⟩

/-- When the `gsm:eip-alloc-id` tag is empty but the record is pinned —
a lost best-effort tag write — the reconcile sync chain clears the EIP
fields and preserves the other claim-relevant fields. -/
theorem reconcileSyncChain_cleared (v : CloudVM) (eip : Option CloudEIP) (r0 : ServerRecord)
    (ht0 : v.eipTag = "") (halc : r0.eip_allocation_id ≠ "") :
    (syncLaunchTime v (syncContainerName v (eipSyncReconcile v eip
        (syncRcon v (syncPortsReconcile v (syncSg v r0)))))).status = r0.status ∧
    (syncLaunchTime v (syncContainerName v (eipSyncReconcile v eip
        (syncRcon v (syncPortsReconcile v (syncSg v r0)))))).public_ip = r0.public_ip ∧
    (syncLaunchTime v (syncContainerName v (eipSyncReconcile v eip
        (syncRcon v (syncPortsReconcile v (syncSg v r0)))))).eip_allocation_id = "" ∧
    (syncLaunchTime v (syncContainerName v (eipSyncReconcile v eip
        (syncRcon v (syncPortsReconcile v (syncSg v r0)))))).eip_public_ip = "" := by
  obtain ⟨a1, a2, a3, a4⟩ := syncSg_fields v r0
  obtain ⟨b1, b2, b3, b4⟩ := syncPortsReconcile_fields v (syncSg v r0)
  obtain ⟨c1, c2, c3, c4⟩ := syncRcon_fields v (syncPortsReconcile v (syncSg v r0))
  have heq : eipSyncReconcile v eip (syncRcon v (syncPortsReconcile v (syncSg v r0))) =
      { syncRcon v (syncPortsReconcile v (syncSg v r0)) with eip_allocation_id := "", eip_public_ip := "" } := by
    unfold eipSyncReconcile
    rw [if_pos (show v.eipTag ≠ (syncRcon v (syncPortsReconcile v (syncSg v r0))).eip_allocation_id from by rw [ht0, c3, b3, a3]; exact fun hc => halc hc.symm)]
    rw [ht0, if_neg (show ¬("" : String) ≠ "" from fun hc => hc rfl)]
  rw [heq]
  obtain ⟨d1, d2, d3, d4⟩ := syncContainerName_fields v
    { syncRcon v (syncPortsReconcile v (syncSg v r0)) with eip_allocation_id := "", eip_public_ip := "" }
  obtain ⟨e1, e2, e3, e4⟩ := syncLaunchTime_fields v (syncContainerName v
    { syncRcon v (syncPortsReconcile v (syncSg v r0)) with eip_allocation_id := "", eip_public_ip := "" })
  refine ⟨?_, ?_, ?_, ?_⟩
  · rw [e1, d1]
    show (syncRcon v (syncPortsReconcile v (syncSg v r0))).status = r0.status
    rw [c1, b1, a1]
  · rw [e2, d2]
    show (syncRcon v (syncPortsReconcile v (syncSg v r0))).public_ip = r0.public_ip
    rw [c2, b2, a2]
  · rw [e3, d3]
  · rw [e4, d4]

/-- Under the invariant the per-record reconcile sync keeps the status
(up to the `running`-to-`stopped` flip of a stale container-stopped
tag), sets `public_ip` from the instance, and either keeps the EIP
fields (tag and record agree) or clears them (empty tag on a pinned
record). -/
theorem reconcileRecordSync_of_inv {r : ServerRecord} {v : CloudVM} (eip : Option CloudEIP)
    (hstatusOk : statusOk r)
    (htag : v.eipTag = r.eip_allocation_id ∨ v.eipTag = "")
    (hpaused : r.status = "paused" → v.state = .stopping ∨ v.state = .stopped)
    (hrun : r.status ≠ "paused" → v.state = .running) :
    ((reconcileRecordSync r v eip).status = r.status ∨
      (r.status = "running" ∧ (reconcileRecordSync r v eip).status = "stopped")) ∧
    (reconcileRecordSync r v eip).public_ip = observedIp v eip ∧
    ((reconcileRecordSync r v eip).eip_allocation_id = r.eip_allocation_id ∧
        (reconcileRecordSync r v eip).eip_public_ip = r.eip_public_ip ∨
      (reconcileRecordSync r v eip).eip_allocation_id = "" ∧
        (reconcileRecordSync r v eip).eip_public_ip = "" ∧
        v.eipTag = "" ∧ r.eip_allocation_id ≠ "") := by
  have hstatus := refreshNewStatus_of_inv hstatusOk hpaused hrun
  unfold reconcileRecordSync
  by_cases hsync : v.eipTag = r.eip_allocation_id
  · obtain ⟨h1, h2, h3, h4⟩ := reconcileSyncChain_fields v eip
      { r with status := reconcileNewStatus v.state.toEc2String r.status (if v.containerStoppedTag then "true" else ""), public_ip := observedIp v eip }
      hsync
    refine ⟨?_, by rw [h2], Or.inl ⟨by rw [h3], by rw [h4]⟩⟩
    rcases hstatus with hs | ⟨hrn, hs⟩
    · exact Or.inl (by rw [h1]; exact hs)
    · exact Or.inr ⟨hrn, by rw [h1]; exact hs⟩
  · have ht0 : v.eipTag = "" := by
      rcases htag with h | h
      · exact absurd h hsync
      · exact h
    have halc : r.eip_allocation_id ≠ "" := fun hc => hsync (by rw [ht0, hc])
    obtain ⟨h1, h2, h3, h4⟩ := reconcileSyncChain_cleared v eip
      { r with status := reconcileNewStatus v.state.toEc2String r.status (if v.containerStoppedTag then "true" else ""), public_ip := observedIp v eip }
      ht0 halc
    refine ⟨?_, by rw [h2], Or.inr ⟨by rw [h3], by rw [h4], ht0, halc⟩⟩
    rcases hstatus with hs | ⟨hrn, hs⟩
    · exact Or.inl (by rw [h1]; exact hs)
    · exact Or.inr ⟨hrn, by rw [h1]; exact hs⟩

/-- `reconcile` preserves the invariant; in particular its stale-EIP
cleanup branch never fires on an invariant state. -/
theorem reconcileSys_inv {s : Sys} (hinv : SysInv s) (now : String) :
    SysInv (reconcileSys now s) := by
  obtain ⟨srec, svm, seip⟩ := s
  cases srec with
  | none =>
    have hinv0 := hinv
    simp only [SysInv] at hinv
    rcases hinv with hvm | ⟨v, hvm, hterm⟩
    · subst hvm
      have hid : reconcileSys now ⟨none, none, seip⟩ = ⟨none, none, seip⟩ := by
        simp [reconcileSys]
      rw [hid]
      exact hinv0
    · subst hvm
      have hid : reconcileSys now ⟨none, some v, seip⟩ = ⟨none, some v, seip⟩ := by
        simp [reconcileSys, hterm]
      rw [hid]
      exact hinv0
  | some r =>
    simp only [SysInv] at hinv
    obtain ⟨hstOk, ⟨v, hvm, htag, hpaused, hrun⟩, heip⟩ := hinv
    subst hvm
    have hterm := vmState_ne_terminated_of_inv hpaused hrun
    have hif : (if v.state = VMState.terminated then (none : Option CloudVM) else some v)
        = some v := if_neg hterm
    have hsp : ¬("stopped" : String) = "paused" := by decide
    obtain ⟨hst, hpub, hfld⟩ := reconcileRecordSync_of_inv seip hstOk htag hpaused hrun
    rcases hfld with ⟨f3, f4⟩ | ⟨f3, f4, ht0, halc⟩
    · by_cases halc : r.eip_allocation_id = ""
      · cases seip with
        | none =>
          have hcond : ¬((reconcileRecordSync r v none).eip_allocation_id ≠ "" ∧ True) := by
            intro hc
            rw [f3] at hc
            exact hc.1 halc
          simp only [reconcileSys, hif]
          rw [if_neg hcond]
          simp only [SysInv]
          refine ⟨?_, ⟨v, rfl, ?_, ?_, ?_⟩, ?_⟩
          · unfold statusOk
            rcases hst with h | ⟨_, h⟩
            · rw [h]
              exact hstOk
            · rw [h]
              exact Or.inr (Or.inl rfl)
          · rw [f3]
            exact htag
          · rcases hst with h | ⟨_, h⟩
            · rw [h]
              exact hpaused
            · rw [h]
              exact fun hq => absurd hq hsp
          · rcases hst with h | ⟨hrn, h⟩
            · rw [h]
              exact hrun
            · rw [h]
              exact fun _ => hrun (by rw [hrn]; decide)
          · rw [f3]
            intro ha
            exact absurd halc ha
        | some e2 =>
          have hcond : ¬((reconcileRecordSync r v (some e2)).eip_allocation_id ≠ "" ∧
              (!(decide (e2.allocId =
                (reconcileRecordSync r v (some e2)).eip_allocation_id))) = true) := by
            intro hc
            rw [f3] at hc
            exact hc.1 halc
          simp only [reconcileSys, hif]
          rw [if_neg hcond]
          simp only [SysInv]
          refine ⟨?_, ⟨v, rfl, ?_, ?_, ?_⟩, ?_⟩
          · unfold statusOk
            rcases hst with h | ⟨_, h⟩
            · rw [h]
              exact hstOk
            · rw [h]
              exact Or.inr (Or.inl rfl)
          · rw [f3]
            exact htag
          · rcases hst with h | ⟨_, h⟩
            · rw [h]
              exact hpaused
            · rw [h]
              exact fun hq => absurd hq hsp
          · rcases hst with h | ⟨hrn, h⟩
            · rw [h]
              exact hrun
            · rw [h]
              exact fun _ => hrun (by rw [hrn]; decide)
          · rw [f3]
            intro ha
            exact absurd halc ha
      · obtain ⟨e, he0, he1, he2, he3⟩ := heip halc
        have he : seip = some e := he0
        subst he
        have hcond : ¬((reconcileRecordSync r v (some e)).eip_allocation_id ≠ "" ∧
            (!(decide (e.allocId =
              (reconcileRecordSync r v (some e)).eip_allocation_id))) = true) := by
          intro hc
          rw [f3, he1] at hc
          simp at hc
        simp only [reconcileSys, hif]
        rw [if_neg hcond]
        simp only [SysInv]
        refine ⟨?_, ⟨v, rfl, ?_, ?_, ?_⟩, ?_⟩
        · unfold statusOk
          rcases hst with h | ⟨_, h⟩
          · rw [h]
            exact hstOk
          · rw [h]
            exact Or.inr (Or.inl rfl)
        · rw [f3]
          exact htag
        · rcases hst with h | ⟨_, h⟩
          · rw [h]
            exact hpaused
          · rw [h]
            exact fun hq => absurd hq hsp
        · rcases hst with h | ⟨hrn, h⟩
          · rw [h]
            exact hrun
          · rw [h]
            exact fun _ => hrun (by rw [hrn]; decide)
        · rw [f3, f4]
          intro _
          refine ⟨e, rfl, he1, he2, ?_⟩
          rcases hst with h | ⟨hrn, h⟩
          · rw [h]
            intro hnp
            obtain ⟨hassoc, _⟩ := he3 hnp
            refine ⟨hassoc, ?_⟩
            rw [hpub]
            show (if e.associated = true then e.publicIp
              else if v.state = VMState.running then v.ephemeralIp else "") = r.eip_public_ip
            rw [if_pos hassoc]
            exact he2
          · rw [h]
            intro _
            obtain ⟨hassoc, _⟩ := he3 (by rw [hrn]; decide)
            refine ⟨hassoc, ?_⟩
            rw [hpub]
            show (if e.associated = true then e.publicIp
              else if v.state = VMState.running then v.ephemeralIp else "") = r.eip_public_ip
            rw [if_pos hassoc]
            exact he2
    · obtain ⟨e, he0, he1, he2, he3⟩ := heip halc
      have he : seip = some e := he0
      subst he
      have hcond : ¬((reconcileRecordSync r v (some e)).eip_allocation_id ≠ "" ∧
          (!(decide (e.allocId =
            (reconcileRecordSync r v (some e)).eip_allocation_id))) = true) := by
        intro hc
        rw [f3] at hc
        exact hc.1 rfl
      simp only [reconcileSys, hif]
      rw [if_neg hcond]
      simp only [SysInv]
      refine ⟨?_, ⟨v, rfl, Or.inr ht0, ?_, ?_⟩, ?_⟩
      · unfold statusOk
        rcases hst with h | ⟨_, h⟩
        · rw [h]
          exact hstOk
        · rw [h]
          exact Or.inr (Or.inl rfl)
      · rcases hst with h | ⟨_, h⟩
        · rw [h]
          exact hpaused
        · rw [h]
          exact fun hq => absurd hq hsp
      · rcases hst with h | ⟨hrn, h⟩
        · rw [h]
          exact hrun
        · rw [h]
          exact fun _ => hrun (by rw [hrn]; decide)
      · rw [f3]
        intro ha
        exact absurd rfl ha

/-- The state a successful launch builds satisfies the invariant,
whether or not the best-effort `gsm:eip-alloc-id` tag write landed. -/
theorem opLaunchGo_inv (server_id game_name srv_name instance_id region sg_id ephem
    launch_time container_name rcon ports_tag : String) (ports : PyDict Int)
    (pin : Bool) (alloc_id eip_ip : String) (eip_tag_ok : Bool) :
    SysInv (opLaunchGo server_id game_name srv_name instance_id region sg_id ephem
      launch_time container_name rcon ports_tag ports pin alloc_id eip_ip eip_tag_ok) := by
  have hrp : ¬("running" : String) = "paused" := by decide
  cases pin with
  | false =>
    exact ⟨Or.inl rfl,
           ⟨_, rfl, Or.inl rfl, fun hq => absurd hq hrp, fun _ => rfl⟩,
           fun hc => absurd rfl hc⟩
  | true =>
    cases eip_tag_ok with
    | true =>
      exact ⟨Or.inl rfl,
             ⟨_, rfl, Or.inl rfl, fun hq => absurd hq hrp, fun _ => rfl⟩,
             fun _ => ⟨_, rfl, rfl, rfl, fun _ => ⟨rfl, rfl⟩⟩⟩
    | false =>
      exact ⟨Or.inl rfl,
             ⟨_, rfl, Or.inr rfl, fun hq => absurd hq hrp, fun _ => rfl⟩,
             fun _ => ⟨_, rfl, rfl, rfl, fun _ => ⟨rfl, rfl⟩⟩⟩

/-- A successful launch establishes the invariant. -/
theorem opLaunch_inv {s s' : Sys} {server_id game_name srv_name instance_id region sg_id ephem
    launch_time container_name rcon ports_tag : String} {ports : PyDict Int}
    {pin : Bool} {alloc_id eip_ip : String} {eip_tag_ok : Bool}
    (h : opLaunch s server_id game_name srv_name instance_id region sg_id ephem
      launch_time container_name rcon ports_tag ports pin alloc_id eip_ip eip_tag_ok = some s') :
    SysInv s' := by
  obtain ⟨srec, svm, seip⟩ := s
  cases srec with
  | some r =>
    simp only [opLaunch] at h
    exact Option.noConfusion h
  | none =>
    cases svm with
    | none =>
      simp only [opLaunch, Option.some.injEq] at h
      subst h
      exact opLaunchGo_inv server_id game_name srv_name instance_id region sg_id ephem
        launch_time container_name rcon ports_tag ports pin alloc_id eip_ip eip_tag_ok
    | some v =>
      simp only [opLaunch] at h
      by_cases hterm : v.state = VMState.terminated
      · rw [if_pos hterm] at h
        injection h with h
        subst h
        exact opLaunchGo_inv server_id game_name srv_name instance_id region sg_id ephem
          launch_time container_name rcon ports_tag ports pin alloc_id eip_ip eip_tag_ok
      · rw [if_neg hterm] at h
        exact Option.noConfusion h

/-- A successful destroy re-establishes the invariant (a failed
best-effort EIP release merely leaks the address). -/
theorem opDestroy_inv {s s' : Sys} (hinv : SysInv s) (release_ok : Bool)
    (h : opDestroy s release_ok = some s') : SysInv s' := by
  obtain ⟨srec, svm, seip⟩ := s
  cases srec with
  | none =>
    simp only [opDestroy] at h
    exact Option.noConfusion h
  | some r =>
    obtain ⟨r', v, href, hvm0, hinv'⟩ := refreshSys_inv hinv rfl
    have hvm : svm = some v := hvm0
    subst hvm
    simp only [opDestroy, href, Option.some.injEq] at h
    subst h
    exact Or.inr ⟨_, rfl, rfl⟩

/-- A successful pause preserves the invariant. -/
theorem opPause_inv {s s' : Sys} (hinv : SysInv s) (fv : VMState)
    (h : opPause s fv = some s') : SysInv s' := by
  obtain ⟨srec, svm, seip⟩ := s
  cases srec with
  | none =>
    simp only [opPause] at h
    exact Option.noConfusion h
  | some r =>
    obtain ⟨r', v, href, hvm0, hinv'⟩ := refreshSys_inv hinv rfl
    have hvm : svm = some v := hvm0
    subst hvm
    simp only [SysInv] at hinv'
    rw [href] at hinv'
    obtain ⟨hstOk', ⟨v2, hv2, htag', hpaused', hrun'⟩, heip'⟩ := hinv'
    injection hv2 with hv2
    subst hv2
    simp only [opPause, href] at h
    by_cases hp : r'.status = "paused"
    · rw [if_pos hp] at h
      exact Option.noConfusion h
    · rw [if_neg hp] at h
      by_cases hf : fv = VMState.stopping ∨ fv = VMState.stopped
      · rw [if_pos hf] at h
        injection h with h
        subst h
        refine ⟨Or.inr (Or.inr rfl),
                ⟨_, rfl, htag', fun _ => hf, fun hq => absurd rfl hq⟩,
                ?_⟩
        intro ha
        obtain ⟨e, he, he1, he2, _⟩ := heip' ha
        exact ⟨e, he, he1, he2, fun hq => absurd rfl hq⟩
      · rw [if_neg hf] at h
        exact Option.noConfusion h

/-- A successful stop of the in-VM container preserves the invariant,
whether or not the `gsm:container-stopped` tag write landed. -/
theorem opStopContainer_inv {s s' : Sys} (hinv : SysInv s) (tag_ok : Bool)
    (h : opStopContainer s tag_ok = some s') : SysInv s' := by
  obtain ⟨srec, svm, seip⟩ := s
  cases srec with
  | none =>
    simp only [opStopContainer] at h
    exact Option.noConfusion h
  | some r =>
    obtain ⟨r', v, href, hvm0, hinv'⟩ := refreshSys_inv hinv rfl
    have hvm : svm = some v := hvm0
    subst hvm
    simp only [SysInv] at hinv'
    rw [href] at hinv'
    obtain ⟨hstOk', ⟨v2, hv2, htag', hpaused', hrun'⟩, heip'⟩ := hinv'
    injection hv2 with hv2
    subst hv2
    simp only [opStopContainer, href] at h
    by_cases hp : r'.status = "running"
    · rw [if_pos hp] at h
      injection h with h
      subst h
      have hsp : ¬("stopped" : String) = "paused" := by decide
      have hnv : v.state = VMState.running := hrun' (by rw [hp]; decide)
      refine ⟨Or.inr (Or.inl rfl),
              ⟨_, rfl, htag', fun hq => absurd hq hsp, fun _ => hnv⟩,
              ?_⟩
      intro ha
      obtain ⟨e, he, he1, he2, he3⟩ := heip' ha
      exact ⟨e, he, he1, he2, fun _ => he3 (by rw [hp]; decide)⟩
    · rw [if_neg hp] at h
      exact Option.noConfusion h

/-- A successful resume preserves the invariant, whether or not the
best-effort `gsm:container-stopped` tag deletion landed. -/
theorem opResume_inv {s s' : Sys} (hinv : SysInv s) (newEphem : String) (tag_ok : Bool)
    (h : opResume s newEphem tag_ok = some s') : SysInv s' := by
  obtain ⟨srec, svm, seip⟩ := s
  cases srec with
  | none =>
    simp only [opResume] at h
    exact Option.noConfusion h
  | some r =>
    obtain ⟨r', v, href, hvm0, hinv'⟩ := refreshSys_inv hinv rfl
    have hvm : svm = some v := hvm0
    subst hvm
    simp only [SysInv] at hinv'
    rw [href] at hinv'
    obtain ⟨hstOk', ⟨v2, hv2, htag', hpaused', hrun'⟩, heip'⟩ := hinv'
    injection hv2 with hv2
    subst hv2
    have hrp : ¬("running" : String) = "paused" := by decide
    by_cases hstop : r'.status = "stopped"
    · simp only [opResume, href] at h
      rw [if_pos hstop] at h
      injection h with h
      subst h
      have hnv : v.state = VMState.running := hrun' (by rw [hstop]; decide)
      refine ⟨Or.inl rfl,
              ⟨_, rfl, htag', fun hq => absurd hq hrp, fun _ => hnv⟩,
              ?_⟩
      intro ha
      obtain ⟨e, he, he1, he2, he3⟩ := heip' ha
      exact ⟨e, he, he1, he2, fun _ => he3 (by rw [hstop]; decide)⟩
    · by_cases hp : r'.status = "paused"
      · by_cases ha : r'.eip_allocation_id = ""
        · simp only [opResume, href] at h
          rw [if_neg hstop, if_pos hp, if_neg (fun hc => hc ha)] at h
          injection h with h
          subst h
          refine ⟨Or.inl rfl,
                  ⟨_, rfl, htag', fun hq => absurd hq hrp, fun _ => rfl⟩,
                  fun hc => absurd ha hc⟩
        · obtain ⟨e, he0, he1, he2, he3⟩ := heip' ha
          have he : seip = some e := he0
          subst he
          simp only [opResume, href] at h
          rw [if_neg hstop, if_pos hp, if_pos ha, if_pos he1] at h
          injection h with h
          subst h
          refine ⟨Or.inl rfl,
                  ⟨_, rfl, htag', fun hq => absurd hq hrp, fun _ => rfl⟩,
                  fun _ => ⟨_, rfl, he1, he2, fun _ => ⟨rfl, rfl⟩⟩⟩
      · simp only [opResume, href] at h
        rw [if_neg hstop, if_neg hp] at h
        exact Option.noConfusion h

/-- A successful pin preserves the invariant, whether or not the
best-effort `gsm:eip-alloc-id` tag write landed. -/
theorem opPinIp_inv {s s' : Sys} (hinv : SysInv s) (alloc_id eip_ip : String) (tag_ok : Bool)
    (h : opPinIp s alloc_id eip_ip tag_ok = some s') : SysInv s' := by
  obtain ⟨srec, svm, seip⟩ := s
  cases srec with
  | none =>
    simp only [opPinIp] at h
    exact Option.noConfusion h
  | some r =>
    simp only [SysInv] at hinv
    obtain ⟨hstOk, ⟨v, hvm, htag, hpaused, hrun⟩, heip⟩ := hinv
    subst hvm
    simp only [opPinIp] at h
    by_cases ha : r.eip_allocation_id ≠ ""
    · rw [if_pos ha] at h
      exact Option.noConfusion h
    · rw [if_neg ha] at h
      have ha' : r.eip_allocation_id = "" := by
        by_contra hc
        exact ha hc
      have htag' : (if tag_ok then alloc_id else v.eipTag) = alloc_id ∨
          (if tag_ok then alloc_id else v.eipTag) = "" := by
        cases tag_ok with
        | true => exact Or.inl rfl
        | false =>
          rcases htag with hteq | ht0
          · rw [ha'] at hteq
            exact Or.inr hteq
          · exact Or.inr ht0
      by_cases hs : r.status = "running" ∨ r.status = "stopped"
      · rw [if_pos hs] at h
        injection h with h
        subst h
        exact ⟨hstOk, ⟨_, rfl, htag', hpaused, hrun⟩,
               fun _ => ⟨_, rfl, rfl, rfl, fun _ => ⟨rfl, rfl⟩⟩⟩
      · rw [if_neg hs] at h
        injection h with h
        subst h
        have hps : r.status = "paused" := by
          rcases hstOk with h1 | h1 | h1
          · exact absurd (Or.inl h1) hs
          · exact absurd (Or.inr h1) hs
          · exact h1
        exact ⟨hstOk, ⟨_, rfl, htag', hpaused, hrun⟩,
               fun _ => ⟨_, rfl, rfl, rfl, fun hq => absurd hps hq⟩⟩

/-- A successful unpin whose best-effort `gsm:eip-alloc-id` tag deletion
also lands preserves the invariant (a lost deletion leaves a stale tag
and is the counterexample to the broader claim). -/
theorem opUnpinIp_inv {s s' : Sys} (hinv : SysInv s) (newEphem : String)
    (h : opUnpinIp s newEphem true = some s') : SysInv s' := by
  obtain ⟨srec, svm, seip⟩ := s
  cases srec with
  | none =>
    simp only [opUnpinIp] at h
    exact Option.noConfusion h
  | some r =>
    simp only [SysInv] at hinv
    obtain ⟨hstOk, ⟨v, hvm, htag, hpaused, hrun⟩, heip⟩ := hinv
    subst hvm
    by_cases ha : r.eip_allocation_id = ""
    · simp only [opUnpinIp] at h
      rw [if_pos ha] at h
      exact Option.noConfusion h
    · obtain ⟨e, he0, he1, he2, he3⟩ := heip ha
      have he : seip = some e := he0
      subst he
      simp only [opUnpinIp] at h
      rw [if_neg ha, if_pos he1] at h
      by_cases hs : r.status = "running" ∨ r.status = "stopped"
      · rw [if_pos hs] at h
        injection h with h
        subst h
        exact ⟨hstOk, ⟨_, rfl, Or.inr rfl, hpaused, hrun⟩, fun hc => absurd rfl hc⟩
      · rw [if_neg hs] at h
        injection h with h
        subst h
        exact ⟨hstOk, ⟨_, rfl, Or.inr rfl, hpaused, hrun⟩, fun hc => absurd rfl hc⟩

/-- States reachable from the empty world by successfully completing
provisioner operations.  The best-effort calls may fail or succeed
freely, with one exception: each completing `unpin_ip`'s swallowed
deletion of the `gsm:eip-alloc-id` instance tag (provisioner.py lines
939-942) must land — a lost deletion leaves a stale tag that a later
refresh re-adopts, breaking the property (see the counterexample). -/
inductive SysReachable : Sys → Prop where
  | init : SysReachable ⟨none, none, none⟩
  | launchStep : ∀ {s s' : Sys}
      {server_id game_name srv_name instance_id region sg_id ephem
        launch_time container_name rcon ports_tag : String} {ports : PyDict Int}
      {pin : Bool} {alloc_id eip_ip : String} {eip_tag_ok : Bool},
      opLaunch s server_id game_name srv_name instance_id region sg_id ephem
        launch_time container_name rcon ports_tag ports pin alloc_id eip_ip eip_tag_ok
        = some s' →
      SysReachable s → SysReachable s'
  | destroyStep : ∀ {s s' : Sys} {release_ok : Bool},
      opDestroy s release_ok = some s' → SysReachable s → SysReachable s'
  | pauseStep : ∀ {s s' : Sys} {fv : VMState},
      opPause s fv = some s' → SysReachable s → SysReachable s'
  | resumeStep : ∀ {s s' : Sys} {newEphem : String} {tag_ok : Bool},
      opResume s newEphem tag_ok = some s' → SysReachable s → SysReachable s'
  | stopContainerStep : ∀ {s s' : Sys} {tag_ok : Bool},
      opStopContainer s tag_ok = some s' → SysReachable s → SysReachable s'
  | pinStep : ∀ {s s' : Sys} {alloc_id eip_ip : String} {tag_ok : Bool},
      opPinIp s alloc_id eip_ip tag_ok = some s' → SysReachable s → SysReachable s'
  | unpinStep : ∀ {s s' : Sys} {newEphem : String},
      opUnpinIp s newEphem true = some s' → SysReachable s → SysReachable s'
  | reconcileStep : ∀ {s s' : Sys} {now : String},
      opReconcile s now = some s' → SysReachable s → SysReachable s'

/-- Every reachable state satisfies the strengthened invariant. -/
theorem sysReachable_inv {s : Sys} (h : SysReachable s) : SysInv s := by
  induction h with
  | init => exact Or.inl rfl
  | launchStep heq _ _ => exact opLaunch_inv heq
  | destroyStep heq _ ih => exact opDestroy_inv ih _ heq
  | pauseStep heq _ ih => exact opPause_inv ih _ heq
  | resumeStep heq _ ih => exact opResume_inv ih _ _ heq
  | stopContainerStep heq _ ih => exact opStopContainer_inv ih _ heq
  | pinStep heq _ ih => exact opPinIp_inv ih _ _ _ heq
  | unpinStep heq _ ih => exact opUnpinIp_inv ih _ heq
  | reconcileStep heq _ ih =>
    injection heq with heq
    subst heq
    exact reconcileSys_inv ih _

/-- **C2 (amended).** For every server record in any state reachable by
a sequence of successfully completing Provisioner operations — launch
(with or without `pin_ip`), destroy, pause, resume, stop_container,
pin_ip, unpin_ip, reconcile, with every best-effort call free to fail
except that each completing `unpin_ip`'s swallowed `gsm:eip-alloc-id`
tag deletion must land — if the record's `eip_allocation_id` is
non-empty and its status is not `paused`, then its `public_ip` equals
its `eip_public_ip`.  The claim as stated over all operation sequences
fails, and the unpin_ip proviso is forced: see the counterexample, a
run of four successfully completing operations. -/
theorem C2_eip_consistency {s : Sys} (hreach : SysReachable s)
    {r : ServerRecord} (hrec : s.record = some r)
    (halloc : r.eip_allocation_id ≠ "") (hstatus : r.status ≠ "paused") :
    r.public_ip = r.eip_public_ip := by
  have hinv := sysReachable_inv hreach
  obtain ⟨srec, svm, seip⟩ := s
  have hrec' : srec = some r := hrec
  subst hrec'
  simp only [SysInv] at hinv
  obtain ⟨-, -, heip⟩ := hinv
  obtain ⟨e, -, -, -, he3⟩ := heip halloc
  exact (he3 hstatus).2

/-- The system state a successful pinned launch from the empty world
produces. -/
def pinnedLaunchSys : Sys :=
  opLaunchGo "srv1" "factorio" "f-1" "i-1" "us-east-1" "sg-1" "3.3.3.3" "t0"
    "gsm-factorio-srv1" "rc" "34197/udp" [("34197/udp", 34197)] true "eipalloc-1" "5.6.7.8" true

/-- The record that launch persists in `pinnedLaunchSys`. -/
def pinnedLaunchRecord : ServerRecord :=
  { id := "srv1"
    game := "factorio"
    name := "f-1"
    instance_id := "i-1"
    region := "us-east-1"
    public_ip := "5.6.7.8"
    ports := [("34197/udp", 34197)]
    status := "running"
    security_group_id := "sg-1"
    launch_time := "t0"
    container_name := "gsm-factorio-srv1"
    rcon_password := "rc"
    config := []
    eip_allocation_id := "eipalloc-1"
    eip_public_ip := "5.6.7.8" }

/-- Witness for C2: after a pinned launch from the empty world the
record is pinned, not paused, and `public_ip = eip_public_ip`. -/
theorem C2_eip_consistency_witness :
    pinnedLaunchSys.record = some pinnedLaunchRecord ∧
    pinnedLaunchRecord.eip_allocation_id ≠ "" ∧
    pinnedLaunchRecord.status ≠ "paused" ∧
    pinnedLaunchRecord.public_ip = pinnedLaunchRecord.eip_public_ip := by
  refine ⟨rfl, by decide, by decide, ?_⟩
  exact C2_eip_consistency
    (SysReachable.launchStep
      (show opLaunch ⟨none, none, none⟩ "srv1" "factorio" "f-1" "i-1" "us-east-1" "sg-1"
        "3.3.3.3" "t0" "gsm-factorio-srv1" "rc" "34197/udp" [("34197/udp", 34197)] true
        "eipalloc-1" "5.6.7.8" true = some pinnedLaunchSys from rfl)
      SysReachable.init)
    rfl (by decide) (by decide)

/-- The four states of the violating run: an unpinned launch, a pin, an
unpin whose swallowed `gsm:eip-alloc-id` tag deletion fails (the
operation still completes), and a container stop whose refresh re-adopts
the stale tag into `eip_allocation_id` while `eip_public_ip` stays empty
(the address was released) and `public_ip` stays ephemeral. -/
def cexLaunch : Sys :=
  opLaunchGo "srv2" "factorio" "f-2" "i-2" "us-east-1" "sg-2" "3.3.3.3" "t0"
    "gsm-factorio-srv2" "" "" [] false "" "" true

def cexPinned : Sys :=
  { record := some
      { id := "srv2", game := "factorio", name := "f-2"
        instance_id := "i-2", region := "us-east-1"
        public_ip := "5.6.7.8", ports := [], status := "running"
        security_group_id := "sg-2", launch_time := "t0"
        container_name := "gsm-factorio-srv2", rcon_password := "", config := []
        eip_allocation_id := "eipalloc-2", eip_public_ip := "5.6.7.8" }
    vm := some
      { state := .running, instanceId := "i-2", region := "us-east-1"
        ephemeralIp := "3.3.3.3", gsmId := "srv2", gameTag := "factorio"
        nameTag := "f-2", sgTag := "sg-2", portsTag := ""
        rconTag := "", containerNameTag := "gsm-factorio-srv2"
        launchTimeTag := "t0", eipTag := "eipalloc-2"
        containerStoppedTag := false }
    eip := some { allocId := "eipalloc-2", publicIp := "5.6.7.8", associated := true } }

def cexUnpinned : Sys :=
  { record := some
      { id := "srv2", game := "factorio", name := "f-2"
        instance_id := "i-2", region := "us-east-1"
        public_ip := "9.9.9.9", ports := [], status := "running"
        security_group_id := "sg-2", launch_time := "t0"
        container_name := "gsm-factorio-srv2", rcon_password := "", config := []
        eip_allocation_id := "", eip_public_ip := "" }
    vm := some
      { state := .running, instanceId := "i-2", region := "us-east-1"
        ephemeralIp := "9.9.9.9", gsmId := "srv2", gameTag := "factorio"
        nameTag := "f-2", sgTag := "sg-2", portsTag := ""
        rconTag := "", containerNameTag := "gsm-factorio-srv2"
        launchTimeTag := "t0", eipTag := "eipalloc-2"
        containerStoppedTag := false }
    eip := none }

def cexStopped : Sys :=
  { record := some
      { id := "srv2", game := "factorio", name := "f-2"
        instance_id := "i-2", region := "us-east-1"
        public_ip := "9.9.9.9", ports := [], status := "stopped"
        security_group_id := "sg-2", launch_time := "t0"
        container_name := "gsm-factorio-srv2", rcon_password := "", config := []
        eip_allocation_id := "eipalloc-2", eip_public_ip := "" }
    vm := some
      { state := .running, instanceId := "i-2", region := "us-east-1"
        ephemeralIp := "9.9.9.9", gsmId := "srv2", gameTag := "factorio"
        nameTag := "f-2", sgTag := "sg-2", portsTag := ""
        rconTag := "", containerNameTag := "gsm-factorio-srv2"
        launchTimeTag := "t0", eipTag := "eipalloc-2"
        containerStoppedTag := true }
    eip := none }

/-- Counterexample to C2 as stated (and to any amendment without the
unpin_ip tag-deletion proviso): four Provisioner operations, each
completing successfully — launch, pin_ip, unpin_ip whose swallowed
`gsm:eip-alloc-id` tag deletion fails, stop_container — end in a record
with a non-empty `eip_allocation_id`, status `stopped` (not `paused`)
and `public_ip ≠ eip_public_ip`: stop_container's `_refresh_record`
re-adopted the stale tag left by unpin_ip. -/
theorem C2_eip_consistency_counterexample :
    opLaunch ⟨none, none, none⟩ "srv2" "factorio" "f-2" "i-2" "us-east-1" "sg-2" "3.3.3.3"
        "t0" "gsm-factorio-srv2" "" "" [] false "" "" true = some cexLaunch ∧
    opPinIp cexLaunch "eipalloc-2" "5.6.7.8" true = some cexPinned ∧
    opUnpinIp cexPinned "9.9.9.9" false = some cexUnpinned ∧
    opStopContainer cexUnpinned true = some cexStopped ∧
    ∃ r, cexStopped.record = some r ∧
      r.eip_allocation_id ≠ "" ∧ r.status ≠ "paused" ∧ r.public_ip ≠ r.eip_public_ip := by
  refine ⟨rfl, by decide, by decide, by decide, ?_⟩
  exact ⟨_, rfl, by decide, by decide, by decide⟩
